/-
Verification of the dsrf flat-file validation library.

This file is a shallow embedding, in Lean 4, of the parts of the dsrf
Python library relevant to the structural claims under study:

* `conformance/conformance_validators.py` — the grammar matching engine
  (`Node`, `validate_node`, `single_choice`, `single_sequence`,
  `Node.get_quantification`);
* `conformance/error.py` — `BlockConformanceFailure`;
* `parsers/dsrf_file_parser.py` — the block reader (`parse_file`,
  `is_end_of_block`, `_get_row_type`, `get_block_number`,
  `get_row_object`);
* `parsers/cell_validators.py` — the generic part of the cell
  validators (`BaseCellValidator._validate_value`, `validate_value`);
* `parsers/dsrf_schema_parser.py` — enumerated-value resolution
  (`get_fixed_string_values`, `parse_union_fixed_strings`).

Embedding conventions:

* Python `while` loops and the mutual recursion of the matching engine
  are rendered as fuel-indexed structural recursion: every recursive
  call spends one unit of fuel and `none` means "fuel exhausted".  The
  termination theorem shows that for every input some finite fuel is
  enough and the result is then stable, which is exactly the assertion
  that the Python loops terminate.
* Python exceptions are rendered with `Except`; exceptions that a
  caller catches (`error.ValidationError` subclasses) are distinguished
  from those that escape (`IndexError`, `KeyError`, `TypeError`,
  `SystemExit`).
* `float('inf')` used for `max_occurs` is rendered by `MaxOcc.inf`.
-/
import Mathlib

namespace Dsrf

/-! ## Data model: cells, rows (proto `cell_pb2.Cell`, `row_pb2.Row`) -/

/-- A dynamically-typed Python value as it flows through the cell
validators (`None`, strings, ints, bools, lists of such).  Numeric
variants not needed by the claims are elided; the concrete value
produced by a subclass `validate_single_value` is abstract here, see
`CellValidator`. -/
inductive PyValue where
  | none
  | str (s : String)
  | int (n : Int)
  | bool (b : Bool)
  | list (l : List PyValue)

/-- The cell type enum of `cell_pb2` (`STRING`, `INTEGER`, `DECIMAL`,
`BOOLEAN`). -/
inductive CellType where
  | string
  | integer
  | decimal
  | boolean

/-- `cell_pb2.Cell`: a named, typed cell with its (repeated) values. -/
structure Cell where
  name : String
  cell_type : Option CellType
  values : List PyValue

/-- `row_pb2.Row`: a typed row with its 1-based line number and cells. -/
structure Row where
  type : String
  row_number : Nat
  cells : List Cell := []

/-! ## Grammar nodes (`conformance/conformance_validators.py`) -/

/-- `max_occurs`: a number or `float('inf')`. -/
inductive MaxOcc where
  | fin (n : Nat)
  | inf
deriving DecidableEq

/-- `occurs < max_occurs` with `max_occurs` possibly infinite. -/
def MaxOcc.natLt (k : Nat) : MaxOcc → Bool
  | .fin n => k < n
  | .inf => true

/-- `k <= max_occurs` with `max_occurs` possibly infinite. -/
def MaxOcc.natLe (k : Nat) : MaxOcc → Bool
  | .fin n => k ≤ n
  | .inf => true

/-- A conformance `Node` (class `Node`): the root, a sequence, a choice
or an element, with occurrence bounds, children and an optional row
type. -/
inductive Node where
  | mk (min_occurs : Nat) (max_occurs : MaxOcc) (is_sequence : Bool)
      (is_choice : Bool) (children : List Node) (row_type : Option String)

def Node.min_occurs : Node → Nat
  | .mk m _ _ _ _ _ => m

def Node.max_occurs : Node → MaxOcc
  | .mk _ m _ _ _ _ => m

def Node.is_sequence : Node → Bool
  | .mk _ _ s _ _ _ => s

def Node.is_choice : Node → Bool
  | .mk _ _ _ c _ _ => c

def Node.children : Node → List Node
  | .mk _ _ _ _ cs _ => cs

def Node.row_type : Node → Option String
  | .mk _ _ _ _ _ t => t

/-- `Node.get_quantification`: summarize `min_occurs`/`max_occurs` as a
quantifier suffix. -/
def Node.get_quantification (node : Node) : String :=
  if node.min_occurs = 0 then
    if node.max_occurs = MaxOcc.fin 1 then "?" else "*"
  else if node.min_occurs = 1 ∧ MaxOcc.natLt 1 node.max_occurs then "+"
  else ""

/-! ## The matching engine -/

/-- `_is_row_matching(rows, index, node_type)`:
`index < len(rows) and node_type == rows[index].type`. -/
def _is_row_matching (rows : List Row) (index : Nat)
    (node_type : Option String) : Bool :=
  decide (index < rows.length) &&
    (match rows[index]? with
     | some row => node_type == some row.type
     | Option.none => false)

/-- The leaf base case of `validate_node`: the `while occurs <
node.max_occurs` loop greedily consuming rows matching `node.row_type`.
Fuel-indexed; `none` is fuel exhaustion. -/
def leaf_loop : Nat → Nat → MaxOcc → Option String → List Row → Nat → Nat →
    Option Nat
  | 0, _, _, _, _, _, _ => Option.none
  | fuel + 1, min_occurs, max_occurs, row_type, rows, index, occurs =>
    if MaxOcc.natLt occurs max_occurs then
      if _is_row_matching rows index row_type then
        leaf_loop fuel min_occurs max_occurs row_type rows (index + 1)
          (occurs + 1)
      else if occurs < min_occurs then some 0 else some occurs
    else some occurs

/-- One positional argument at the `raise error.BlockConformanceFailure(...)`
call site (Python is dynamically typed, so the argument list is
heterogeneous). -/
inductive PyArg where
  | nat (n : Nat)
  | int (i : Int)
  | node (n : Node)
  | rows (r : List Row)

/-- An exception escaping `validate_node`:
* `raiseCall args` — the `raise error.BlockConformanceFailure(...)`
  statement executed with the evaluated positional arguments `args`;
* `indexError` — `rows[index]` out of range while evaluating those
  arguments. -/
inductive VError where
  | raiseCall (args : List PyArg)
  | indexError

/-
`validate_node`, `single_choice`, `single_sequence` and the two
repetition loops inside `validate_node`, from
`conformance/conformance_validators.py`.  Fuel-indexed as explained in
the file header; `none` is fuel exhaustion, `some (.error e)` a raised
exception, `some (.ok n)` the returned count of validated rows.
-/
mutual

def validate_node : Nat → Node → List Row → Nat → Int → Int →
    Option (Except VError Nat)
  | 0, _, _, _, _, _ => Option.none
  | fuel + 1, node, rows, index, block_number, file_number =>
    match node.children with
    | [] =>
      -- Base case, leaf node.
      match leaf_loop fuel node.min_occurs node.max_occurs node.row_type
          rows index 0 with
      | Option.none => Option.none
      | some occurs => some (Except.ok occurs)
    | child :: _ =>
      if node.is_choice then
        choice_loop fuel node.children node.min_occurs node.max_occurs rows
          index block_number file_number 0 0
      else if node.is_sequence then
        sequence_loop fuel node.children node.min_occurs node.max_occurs rows
          index block_number file_number 0 0
      else
        -- Root element (for the profile).
        match validate_node fuel child rows index block_number file_number with
        | Option.none => Option.none
        | some (Except.error e) => some (Except.error e)
        | some (Except.ok rows_validated) =>
          if !rows.isEmpty && rows_validated != rows.length then
            match rows[index]? with
            | some row =>
              some (Except.error (VError.raiseCall
                [PyArg.nat row.row_number, PyArg.nat rows_validated,
                 PyArg.int block_number, PyArg.int file_number,
                 PyArg.node node, PyArg.rows rows]))
            | Option.none => some (Except.error VError.indexError)
          else some (Except.ok rows_validated)
  termination_by structural fuel _ _ _ _ _ => fuel

def single_choice : Nat → List Node → List Row → Nat → Int → Int →
    Option (Except VError Nat)
  | 0, _, _, _, _, _ => Option.none
  | _ + 1, [], _, _, _, _ => some (Except.ok 0)
  | fuel + 1, child :: rest, rows, index, block_number, file_number =>
    match validate_node fuel child rows index block_number file_number with
    | Option.none => Option.none
    | some (Except.error e) => some (Except.error e)
    | some (Except.ok validated_rows) =>
      -- Since this is a choice, we're happy as soon as we find the first
      -- match.
      if validated_rows != 0 then some (Except.ok validated_rows)
      else single_choice fuel rest rows index block_number file_number
  termination_by structural fuel _ _ _ _ _ => fuel

def single_sequence : Nat → List Node → List Row → Nat → Int → Int → Nat →
    Option (Except VError Nat)
  | 0, _, _, _, _, _, _ => Option.none
  | _ + 1, [], _, _, _, _, total_validated_rows =>
    some (Except.ok total_validated_rows)
  | fuel + 1, child :: rest, rows, index, block_number, file_number,
      total_validated_rows =>
    match validate_node fuel child rows index block_number file_number with
    | Option.none => Option.none
    | some (Except.error e) => some (Except.error e)
    | some (Except.ok validated_rows) =>
      -- We bail when we find the first required node that is not present.
      if validated_rows == 0 && child.min_occurs != 0 then
        some (Except.ok 0)
      else
        single_sequence fuel rest rows (index + validated_rows) block_number
          file_number (total_validated_rows + validated_rows)
  termination_by structural fuel _ _ _ _ _ _ => fuel

def choice_loop : Nat → List Node → Nat → MaxOcc → List Row → Nat → Int →
    Int → Nat → Nat → Option (Except VError Nat)
  | 0, _, _, _, _, _, _, _, _, _ => Option.none
  | fuel + 1, children, min_occurs, max_occurs, rows, index, block_number,
      file_number, occurs, rows_validated =>
    if MaxOcc.natLt occurs max_occurs then
      match single_choice fuel children rows index block_number file_number with
      | Option.none => Option.none
      | some (Except.error e) => some (Except.error e)
      | some (Except.ok nr_rows_validated) =>
        if nr_rows_validated == 0 then
          if occurs < min_occurs then some (Except.ok 0)
          else some (Except.ok (rows_validated + nr_rows_validated))
        else
          choice_loop fuel children min_occurs max_occurs rows
            (index + nr_rows_validated) block_number file_number (occurs + 1)
            (rows_validated + nr_rows_validated)
    else some (Except.ok rows_validated)
  termination_by structural fuel _ _ _ _ _ _ _ _ _ => fuel

def sequence_loop : Nat → List Node → Nat → MaxOcc → List Row → Nat → Int →
    Int → Nat → Nat → Option (Except VError Nat)
  | 0, _, _, _, _, _, _, _, _, _ => Option.none
  | fuel + 1, children, min_occurs, max_occurs, rows, index, block_number,
      file_number, occurs, rows_validated =>
    if MaxOcc.natLt occurs max_occurs then
      match single_sequence fuel children rows index block_number file_number
          0 with
      | Option.none => Option.none
      | some (Except.error e) => some (Except.error e)
      | some (Except.ok nr_rows_validated) =>
        if nr_rows_validated == 0 then
          if occurs < min_occurs then some (Except.ok 0)
          else some (Except.ok rows_validated)
        else
          sequence_loop fuel children min_occurs max_occurs rows
            (index + nr_rows_validated) block_number file_number (occurs + 1)
            (rows_validated + nr_rows_validated)
    else some (Except.ok rows_validated)
  termination_by structural fuel _ _ _ _ _ _ _ _ _ => fuel

end

/-! ## `BlockConformanceFailure` (`conformance/error.py`) -/

/-- `BlockConformanceFailure` exactly as declared in
`conformance/error.py`: its `__init__` takes the five parameters
`line_number, block_number, file_number, node, rows` (plus `self`).
Fields hold dynamic values, as in Python. -/
structure BlockConformanceFailure where
  line_number : PyArg
  block_number : PyArg
  file_number : PyArg
  node : PyArg
  rows : PyArg

/-- Python semantics of calling `BlockConformanceFailure(*args)`
positionally: exactly five positional arguments bind to the five
`__init__` parameters; any other count is a `TypeError`, rendered as
`none`. -/
def blockConformanceFailure_init (args : List PyArg) :
    Option BlockConformanceFailure :=
  match args with
  | [a, b, c, d, e] => some ⟨a, b, c, d, e⟩
  | _ => Option.none

/-! ## Quantifier rendering (claim C4) -/

/-- The quantifier table exactly as the claim states it: `?` for (0,1),
`*` for (0,unbounded), `+` for (1,unbounded), and the empty string for
every other combination of bounds. -/
def claimed_quantification (min_occurs : Nat) (max_occurs : MaxOcc) : String :=
  if min_occurs = 0 ∧ max_occurs = MaxOcc.fin 1 then "?"
  else if min_occurs = 0 ∧ max_occurs = MaxOcc.inf then "*"
  else if min_occurs = 1 ∧ max_occurs = MaxOcc.inf then "+"
  else ""

/-! ## The example profile grammar of the spec (claim C2) -/

/-- A leaf node carrying a row type, as built by the XSD profile
parser. -/
def leaf_node (row_type : String) (min_occurs : Nat) (max_occurs : MaxOcc) :
    Node :=
  Node.mk min_occurs max_occurs false false [] (some row_type)

/-- `Sequence(AS01 and MW01*)`. -/
def as01_sequence : Node :=
  Node.mk 1 (MaxOcc.fin 1) true false
    [leaf_node "AS01" 1 (MaxOcc.fin 1), leaf_node "MW01" 0 MaxOcc.inf]
    Option.none

/-- `[Sequence(AS01 and MW01*) or AS02]+`. -/
def as_choice : Node :=
  Node.mk 1 MaxOcc.inf false true
    [as01_sequence, leaf_node "AS02" 1 (MaxOcc.fin 1)] Option.none

/-- `[RU01 or RU02]*`. -/
def ru_choice : Node :=
  Node.mk 0 MaxOcc.inf false true
    [leaf_node "RU01" 1 (MaxOcc.fin 1), leaf_node "RU02" 1 (MaxOcc.fin 1)]
    Option.none

/-- `Sequence(SU03 and LI01*)*`. -/
def su_sequence : Node :=
  Node.mk 0 MaxOcc.inf true false
    [leaf_node "SU03" 1 (MaxOcc.fin 1), leaf_node "LI01" 0 MaxOcc.inf]
    Option.none

/-- The body of the example profile:
`Sequence([Sequence(AS01 and MW01*) or AS02]+ and [RU01 or RU02]* and
Sequence(SU03 and LI01*)*)`. -/
def example_profile_sequence : Node :=
  Node.mk 1 (MaxOcc.fin 1) true false [as_choice, ru_choice, su_sequence]
    Option.none

/-- The root node wrapping the example profile sequence. -/
def example_profile_root : Node :=
  Node.mk 1 (MaxOcc.fin 1) false false [example_profile_sequence] Option.none

/-- The row-type sequence `[AS01, MW01, RU01, SU03, LI01, LI01]`. -/
def example_rows_valid : List Row :=
  [{type := "AS01", row_number := 1}, {type := "MW01", row_number := 2},
   {type := "RU01", row_number := 3}, {type := "SU03", row_number := 4},
   {type := "LI01", row_number := 5}, {type := "LI01", row_number := 6}]

/-- The row-type sequence `[MW01, RU01, SU03]`. -/
def example_rows_invalid : List Row :=
  [{type := "MW01", row_number := 1}, {type := "RU01", row_number := 2},
   {type := "SU03", row_number := 3}]

/-! ## The Root failure raise site (claim C1) -/

/-- The grammar of `conformance_validators_test.py`:
`[Sequence (a and b) or c]+` under the root. -/
def test_sequence_ab : Node :=
  Node.mk 1 (MaxOcc.fin 1) true false
    [leaf_node "a" 1 (MaxOcc.fin 1), leaf_node "b" 1 (MaxOcc.fin 1)]
    Option.none

def test_choice : Node :=
  Node.mk 1 MaxOcc.inf false true
    [test_sequence_ab, leaf_node "c" 1 (MaxOcc.fin 1)] Option.none

def test_root : Node :=
  Node.mk 1 (MaxOcc.fin 1) false false [test_choice] Option.none

/-- The failing block of the repo's own test: a single row of type `a`
on line 5, block 4, file 8. -/
def test_rows : List Row := [{type := "a", row_number := 5}]

/-- The six positional arguments the source passes at
`raise error.BlockConformanceFailure(rows[index].row_number,
rows_validated, block_number, file_number, node, rows)`. -/
def test_raise_args : List PyArg :=
  [PyArg.nat 5, PyArg.nat 0, PyArg.int 4, PyArg.int 8,
   PyArg.node test_root, PyArg.rows test_rows]

/-- Rows for the C3 witness: exactly two consecutive `AS01` rows. -/
def c3_rows : List Row :=
  [{type := "AS01", row_number := 1}, {type := "AS01", row_number := 2},
   {type := "RU01", row_number := 3}]

/-- Rows for the C5 witness: two consecutive `AS02` rows. -/
def c5_rows : List Row :=
  [{type := "AS02", row_number := 1}, {type := "AS02", row_number := 2}]

mutual

def Node.size : Node → Nat
  | .mk _ _ _ _ children _ => 1 + Node.sizeList children

def Node.sizeList : List Node → Nat
  | [] => 0
  | c :: cs => Node.size c + Node.sizeList cs

end

/-! ## The block reader (`parsers/dsrf_file_parser.py`)

The reader is embedded over already-tokenized csv records (each line is
its list of fields); csv tokenization, file handles and gzip are I/O
outside the embedding.  Likewise `get_row_validators` (which reads the
XSD from disk) is passed in as a `resolve` function parameter. -/

/-- Modelled from the spec: the protobuf block type of `block_pb2`
(generated code, not present under `src/`).  Per spec section 4.3, a
fresh `Block` starts in the header state (Awaiting-Header/In-Header are
one state in the code): `HEAD` is the default/zero enum value, so
`current_block.type == block_pb2.HEAD` holds for a brand-new block and
`not current_block.type` means "still HEAD/unset". -/
inductive BlockType where
  | head
  | body
  | foot
deriving DecidableEq

/-- Modelled from the spec: `block_pb2.Block` (generated code, not
present under `src/`): a typed block with its file number, body block
number, version (HEAD blocks) and rows.  Proto scalar defaults: type
`HEAD` (the zero enum value), number `0`, version `""`. -/
structure Block where
  file_number : Int
  type : BlockType := BlockType.head
  number : Int := 0
  version : String := ""
  rows : List Row := []

/-- An exception inside the block reader:
* `validationError msg` — a `dsrf.error.ValidationError` subclass with
  rendered message `msg`; `parse_file`'s per-row handler catches these
  and logs them;
* `indexError` / `keyError` / `systemExit` — escape uncaught, as in
  Python. -/
inductive PyErr where
  | validationError (msg : String)
  | indexError
  | keyError (key : String)
  | systemExit (code : Int)
deriving DecidableEq

/-! ### Python string-method helpers

Character-list implementations of the Python `str` methods the source
uses (`upper`, `startswith`, `strip`, `replace(old, '')`, `split`).
They are written over `List Char` so that concrete runs reduce inside
the kernel. -/

/-- `str.upper()` (ASCII, which covers row-type codes). -/
def py_upper (s : String) : String :=
  String.mk (s.toList.map Char.toUpper)

def charsLeadWith : List Char → List Char → Bool
  | [], _ => true
  | _ :: _, [] => false
  | a :: as, b :: bs => a == b && charsLeadWith as bs

/-- `str.startswith(pre)`. -/
def py_startswith (s pre : String) : Bool :=
  charsLeadWith pre.toList s.toList

/-- `str.strip()` of surrounding whitespace, as `int()` performs. -/
def py_strip_chars (l : List Char) : List Char :=
  ((l.dropWhile Char.isWhitespace).reverse.dropWhile Char.isWhitespace).reverse

/-- One fuel-indexed pass of `str.replace(old, '')`: remove each
left-to-right non-overlapping occurrence of `pattern`. -/
def remove_go : Nat → List Char → List Char → List Char
  | 0, _, l => l
  | _ + 1, _, [] => []
  | fuel + 1, pattern, c :: rest =>
    if !pattern.isEmpty && charsLeadWith pattern (c :: rest) then
      remove_go fuel pattern ((c :: rest).drop pattern.length)
    else c :: remove_go fuel pattern rest

/-- `str.replace(pattern, '')` (every call site of `replace` in the
source replaces with the empty string). -/
def py_remove (s pattern : String) : String :=
  String.mk (remove_go (s.toList.length + 1) pattern.toList s.toList)

/-- Split a character list at every character satisfying `p`, keeping
empty parts (as Python `str.split(sep)` does). -/
def splitOnPred (p : Char → Bool) : List Char → List (List Char)
  | [] => [[]]
  | c :: rest =>
    let parts := splitOnPred p rest
    if p c then [] :: parts
    else
      match parts with
      | part :: more => (c :: part) :: more
      | [] => [[c]]

/-- `str.split(sep)` for a one-character separator (the repeated-value
delimiter `|`). -/
def py_split_char (s : String) (delim : Char) : List String :=
  (splitOnPred (fun c => c == delim) s.toList).map String.mk

/-- `str.split()` with no argument: split on whitespace runs, dropping
empty parts. -/
def py_split_ws (s : String) : List String :=
  ((splitOnPred Char.isWhitespace s.toList).filter
    (fun part => !part.isEmpty)).map String.mk

/-- `constants.FOOT_ROWS`. -/
def FOOT_ROWS : List String := ["FOOT", "FFOO"]

/-- `re.match` of `constants.HEADER_ROW_PATTERN`, the regular expression
`^SY[0-9]{2,4}$|HEAD|FHEA`: a full `SY` plus 2–4 digits, or a prefix
`HEAD`, or a prefix `FHEA` (the anchors bind only to the first
alternative, and `re.match` anchors at the start). -/
def header_row_pattern_match (row_type : String) : Bool :=
  (match row_type.toList with
   | 'S' :: 'Y' :: rest =>
     decide (2 ≤ rest.length) && decide (rest.length ≤ 4) &&
       rest.all Char.isDigit
   | _ => false) ||
  py_startswith row_type "HEAD" || py_startswith row_type "FHEA"

/-- `re.match` of `constants.VERSIONED_TSV_ROW_TYPE_PATTERN`, the
anchored regular expression for dotted versioned row types: two
uppercase letters, two digits, a dot, two digits. -/
def versioned_tsv_row_type_match (row_type : String) : Bool :=
  match row_type.toList with
  | [a, b, c, d, e, f, g] =>
    a.isUpper && b.isUpper && c.isDigit && d.isDigit && (e == '.') &&
      f.isDigit && g.isDigit
  | _ => false

/-- Python `int(s)` on a field string: optional surrounding whitespace,
optional sign, decimal digits; anything else is a `ValueError`
(underscore grouping and non-ASCII digits are not modeled — the inputs
of interest are plain decimal block-number fields). -/
def py_int (s : String) : Option Int :=
  let signAndDigits : Bool × List Char :=
    match py_strip_chars s.toList with
    | '-' :: rest => (true, rest)
    | '+' :: rest => (false, rest)
    | l => (false, l)
  match signAndDigits with
  | (neg, digits) =>
    if digits.isEmpty || !digits.all Char.isDigit then Option.none
    else
      let n : Nat :=
        digits.foldl (fun acc c => acc * 10 + (c.toNat - '0'.toNat)) 0
      some (if neg then -(n : Int) else (n : Int))

/-- `RowValidationFailure.__str__` from `error.py`. -/
def row_validation_failure_str (row_number : Nat) (file_name error : String) :
    String :=
  "Row number " ++ toString row_number ++ " (file=" ++ file_name ++
    ") is invalid (error=" ++ error ++ ")."

/-! ### Cell validators (`parsers/cell_validators.py`) -/

/-- A cell validator object.  The class hierarchy dispatches
`validate_single_value`, `get_cell_type` and the `_expected_value`
class attribute per subclass; the base class `BaseCellValidator` is
generic in them, so they are fields here.  `validate_single_value` may
raise a `CellValidationFailure` (rendered message) or return a value
(possibly `None`). -/
structure CellValidator where
  cell_name : String
  required : Bool
  repeated : Bool
  cell_type : Option CellType
  expected_value : String
  validate_single_value : String → Nat → String → Int → Except String PyValue

/-- `CellValidationFailure._get_block_string`: block number 0/None is
falsy and omitted. -/
def cell_block_string (block_number : Int) : String :=
  if block_number != 0 then "Block: " ++ toString block_number ++ ", "
  else ""

/-- `RequiredCellMissing.__str__`. -/
def required_cell_missing_str (cell_name expected_value : String)
    (block_number : Int) (row_number : Nat) (file_name : String) : String :=
  "Cell \"" ++ cell_name ++ "\" is required. Value was expected to be " ++
    expected_value ++ ". [" ++ cell_block_string block_number ++ "Row: " ++
    toString row_number ++ ", file=" ++ file_name ++ "]."

/-- `BaseCellValidator._validate_value`: an empty value fails when
required (`RequiredCellMissing`) and passes through when optional; a
non-repeated value goes to `validate_single_value`; a repeated value is
split on `constants.REPEATED_VALUE_DELIMITER` (`|`) and each part
validated. -/
def _validate_value (v : CellValidator) (value : String) (row_number : Nat)
    (file_name : String) (block_number : Int) : Except String PyValue :=
  if value == "" then
    if v.required then
      Except.error (required_cell_missing_str v.cell_name v.expected_value
        block_number row_number file_name)
    else Except.ok (PyValue.str value)
  else if !v.repeated then
    v.validate_single_value value row_number file_name block_number
  else
    match (py_split_char value '|').mapM
        (fun val => v.validate_single_value val row_number file_name
          block_number) with
    | Except.ok vals => Except.ok (PyValue.list vals)
    | Except.error e => Except.error e

/-- `BaseCellValidator.validate_value`: runs `_validate_value`, catching
`CellValidationFailure` — the failure is logged (second component) and
`None` returned. -/
def validate_value (v : CellValidator) (value : String) (row_number : Nat)
    (file_name : String) (block_number : Int) : PyValue × List String :=
  match _validate_value v value row_number file_name block_number with
  | Except.ok x => (x, [])
  | Except.error e => (PyValue.none, [e])

/-! ### Row construction (`DSRFFileParser`) -/

/-- `DSRFFileParser.get_cell_object`: wrap a parsed value (a singleton
unless already a list) into a `Cell`; only the four recognized cell
types populate a value channel. -/
def get_cell_object (cell_validator : CellValidator)
    (cell_parsed_data : PyValue) : Cell :=
  let data := match cell_parsed_data with
    | PyValue.list l => l
    | d => [d]
  { name := cell_validator.cell_name,
    cell_type := cell_validator.cell_type,
    values := match cell_validator.cell_type with
      | some _ => data
      | Option.none => [] }

/-- `cell_parsed_data not in (None, '')`. -/
def cell_not_none_or_empty (v : PyValue) : Bool :=
  match v with
  | PyValue.none => false
  | PyValue.str s => !(s == "")
  | _ => true

/-- The row schema: mapping from row type to its positional validator
list (`None` entries are skipped cells). -/
def RowValidators : Type := List (String × List (Option CellValidator))

def dictGet {α : Type} (d : List (String × α)) (key : String) : Option α :=
  match d.find? (fun p => p.1 == key) with
  | some p => some p.2
  | Option.none => Option.none

def dictContains {α : Type} (d : List (String × α)) (key : String) : Bool :=
  (dictGet d key).isSome

/-- Python truthiness of `self.row_validators_list` (`None` or an empty
dict are falsy). -/
def rvl_truthy (rvl : Option RowValidators) : Bool :=
  match rvl with
  | some d => !d.isEmpty
  | Option.none => false

/-- The `for cell_validator, cell_content in zip(row_validator, line)`
loop body of `get_row_object`: skip falsy validators, validate, keep
cells whose parsed value is neither `None` nor `''`, accumulate logged
cell failures. -/
def row_cells_loop (file_name : String) (row_number : Nat)
    (block_number : Int) (pairs : List (Option CellValidator × String)) :
    List Cell × List String :=
  pairs.foldl
    (fun acc p =>
      match p.1 with
      | Option.none => acc
      | some cell_validator =>
        let res := validate_value cell_validator p.2 row_number file_name
          block_number
        if cell_not_none_or_empty res.1 then
          (acc.1 ++ [get_cell_object cell_validator res.1], acc.2 ++ res.2)
        else (acc.1, acc.2 ++ res.2))
    ([], [])

/-- `DSRFFileParser.get_row_object`: exits when no schema is resolved
(`sys.exit(-1)`), looks the row type up in the schema (`KeyError` if
absent), then zips the validator list positionally against the line's
fields and builds the `Row` (second component: the cell failures logged
during validation). -/
def get_row_object (row_validators_list : Option RowValidators)
    (file_name : String) (line : List String) (row_type : String)
    (row_number : Nat) (block_number : Int) :
    Except PyErr (Row × List String) :=
  if !rvl_truthy row_validators_list then
    Except.error (PyErr.systemExit (-1))
  else
    match row_validators_list with
    | Option.none => Except.error (PyErr.systemExit (-1))
    | some rvl =>
      match dictGet rvl row_type with
      | Option.none => Except.error (PyErr.keyError row_type)
      | some row_validator =>
        let folded := row_cells_loop file_name row_number block_number
          (List.zip row_validator line)
        Except.ok ({ type := row_type, row_number := row_number,
                     cells := folded.1 }, folded.2)

/-- `DSRFFileParser._get_row_type`: an empty record raises a
`RowValidationFailure`; the first field is upper-cased and dotted
versioned codes are normalized; with a resolved non-empty schema an
unknown code raises a `RowValidationFailure`. -/
def _get_row_type (row_validators_list : Option RowValidators)
    (file_name : String) (line : List String) (row_number : Nat) :
    Except PyErr String :=
  match line with
  | [] =>
    Except.error (PyErr.validationError (row_validation_failure_str
      row_number file_name "It is not permissible to include empty Records."))
  | first :: _ =>
    let row_type := py_upper first
    let row_type2 :=
      if versioned_tsv_row_type_match row_type then py_remove row_type "."
      else row_type
    let known : Bool :=
      match row_validators_list with
      | some rvl => dictContains rvl row_type2
      | Option.none => false
    let keys : List String :=
      match row_validators_list with
      | some rvl => rvl.map Prod.fst
      | Option.none => []
    if rvl_truthy row_validators_list && !known then
      Except.error (PyErr.validationError (row_validation_failure_str
        row_number file_name ("Row type " ++ row_type2 ++
          " does not exist in the XSD. Valid row types are: " ++
          toString keys ++ ". ")))
    else Except.ok row_type2

/-- `DSRFFileParser.get_block_number`: `int(line[1])`.  A missing field
raises `IndexError` (the `except` handler itself evaluates
`line[1].upper()`, re-raising the `IndexError` uncaught); a
non-integer field raises a `RowValidationFailure`. -/
def get_block_number (file_name : String) (line : List String)
    (row_number : Nat) : Except PyErr Int :=
  match line.get? 1 with
  | Option.none => Except.error PyErr.indexError
  | some s =>
    match py_int s with
    | some n => Except.ok n
    | Option.none =>
      Except.error (PyErr.validationError (row_validation_failure_str
        row_number file_name ("The block id \"" ++ py_upper s ++
          "\" in line number " ++ toString row_number ++
          " was expected to be an integer.")))

/-- `DSRFFileParser.is_end_of_block`: in a HEAD block, any non-header
row closes it; in a FOOT block, any non-footer row closes it; otherwise
a footer row or a different block-number field closes the current body
block (short-circuit: the block number is only parsed when the row is
not a footer row). -/
def is_end_of_block (file_name : String) (line : List String)
    (row_type : String) (row_number : Nat) (current_block : Block) :
    Except PyErr Bool :=
  if current_block.type = BlockType.head then
    Except.ok (!header_row_pattern_match row_type)
  else if current_block.type = BlockType.foot then
    Except.ok (!FOOT_ROWS.contains row_type)
  else
    if FOOT_ROWS.contains row_type then Except.ok true
    else
      match get_block_number file_name line row_number with
      | Except.error e => Except.error e
      | Except.ok bn => Except.ok (current_block.number != bn)

/-- The mutable state of one `parse_file` run: the loop counters, the
lazily resolved schema, the in-progress block, the blocks yielded so
far and the messages logged so far. -/
structure ParserState where
  row_number : Nat
  block_number : Int
  row_validators_list : Option RowValidators
  current_block : Block
  blocks : List Block
  logged : List String

/-- The outcome of a `parse_file` run: the blocks the generator
yielded, the messages logged, and — when an exception escaped — the
uncaught exception (`aborted = none` means the file was parsed to the
end). -/
structure ParseResult where
  blocks : List Block
  logged : List String
  aborted : Option PyErr

/-- The body of `parse_file`'s `try:` block for one non-comment line.
Returns the state as mutated up to the point of any raised exception
(Python mutations before a raise persist) plus the exception, if any. -/
def process_line (resolve : List String → RowValidators) (file_name : String)
    (file_number : Int) (line : List String) (st : ParserState) :
    ParserState × Option PyErr :=
  match _get_row_type st.row_validators_list file_name line st.row_number with
  | Except.error e => (st, some e)
  | Except.ok row_type =>
    match is_end_of_block file_name line row_type st.row_number
        st.current_block with
    | Except.error e => (st, some e)
    | Except.ok is_end =>
      -- End of block check: yield the current block, start a fresh one.
      let st :=
        if is_end then
          { st with blocks := st.blocks ++ [st.current_block],
                    current_block := { file_number := file_number } }
        else st
      if header_row_pattern_match row_type || FOOT_ROWS.contains row_type then
        -- HEAD/FOOT row.
        let cb := st.current_block
        let cb := { cb with type := BlockType.head }
        let cb := if FOOT_ROWS.contains row_type then
            { cb with type := BlockType.foot }
          else cb
        let st := { st with current_block := cb }
        if row_type == "HEAD" then
          let st := { st with row_validators_list := some (resolve line) }
          match line.get? 1 with
          | Option.none => (st, some PyErr.indexError)
          | some version =>
            let cb2 := { st.current_block with version := version }
            let st := { st with current_block := cb2 }
            match get_row_object st.row_validators_list file_name line
                row_type st.row_number st.block_number with
            | Except.error e => (st, some e)
            | Except.ok rowlog =>
              let cb3 :=
                { st.current_block with
                  rows := st.current_block.rows ++ [rowlog.1] }
              ({ st with current_block := cb3,
                         logged := st.logged ++ rowlog.2 }, Option.none)
        else
          match get_row_object st.row_validators_list file_name line row_type
              st.row_number st.block_number with
          | Except.error e => (st, some e)
          | Except.ok rowlog =>
            let cb3 :=
              { st.current_block with
                rows := st.current_block.rows ++ [rowlog.1] }
            ({ st with current_block := cb3,
                       logged := st.logged ++ rowlog.2 }, Option.none)
      else
        -- Body row.
        match get_block_number file_name line st.row_number with
        | Except.error e => (st, some e)
        | Except.ok bn =>
          let st := { st with block_number := bn }
          match get_row_object st.row_validators_list file_name line row_type
              st.row_number bn with
          | Except.error e => (st, some e)
          | Except.ok rowlog =>
            let st := { st with logged := st.logged ++ rowlog.2 }
            -- `if not current_block.type:` — the block is still in the
            -- default HEAD/unset state.
            let st :=
              if st.current_block.type = BlockType.head then
                let cb4 :=
                  { st.current_block with
                    type := BlockType.body, number := bn }
                { st with current_block := cb4 }
              else st
            let cb5 :=
              { st.current_block with
                rows := st.current_block.rows ++ [rowlog.1] }
            ({ st with current_block := cb5 }, Option.none)

/-- The `for line in csv.reader(...)` loop of `parse_file`: count the
row, skip comments (note `line[0]` raises an uncaught `IndexError` on
an empty record — this happens before the `try:`), run the try-block,
log `ValidationError`s and continue, abort the generator on any other
exception, and yield the final block at end of input. -/
def parse_file_from (resolve : List String → RowValidators)
    (file_name : String) (file_number : Int) :
    List (List String) → ParserState → ParseResult
  | [], st =>
    { blocks := st.blocks ++ [st.current_block], logged := st.logged,
      aborted := Option.none }
  | line :: rest, st =>
    let st := { st with row_number := st.row_number + 1 }
    match line.get? 0 with
    | Option.none =>
      { blocks := st.blocks, logged := st.logged,
        aborted := some PyErr.indexError }
    | some first =>
      -- Comment row.
      if py_startswith first "#" then
        parse_file_from resolve file_name file_number rest st
      else
        match process_line resolve file_name file_number line st with
        | (st2, Option.none) =>
          parse_file_from resolve file_name file_number rest st2
        | (st2, some (PyErr.validationError msg)) =>
          parse_file_from resolve file_name file_number rest
            { st2 with logged := st2.logged ++ [msg] }
        | (st2, some e) =>
          { blocks := st2.blocks, logged := st2.logged, aborted := some e }
  termination_by structural l _ => l

/-- `DSRFFileParser.parse_file` on a tokenized file. -/
def parse_file (resolve : List String → RowValidators) (file_name : String)
    (file_number : Int) (lines : List (List String)) : ParseResult :=
  parse_file_from resolve file_name file_number lines
    { row_number := 0, block_number := 0,
      row_validators_list := Option.none,
      current_block := { file_number := file_number }, blocks := [],
      logged := [] }

/-- A minimal row schema for concrete block-reader runs: the three row
types used by the demo files, each with an empty validator list. -/
def demo_schema : RowValidators := [("HEAD", []), ("AS02", []), ("FFOO", [])]

/-- A tokenized file whose second record is empty (an empty line
produces an empty field list). -/
def empty_record_lines : List (List String) :=
  [["HEAD", "1.1"], [], ["AS02", "1", "x"], ["FFOO", "3"]]

/-- A tokenized file with a BODY row after the FOOT block. -/
def foot_then_body_lines : List (List String) :=
  [["HEAD", "1.1"], ["AS02", "1", "x"], ["FFOO", "2"], ["AS02", "2", "y"]]

/-- A concrete required string validator (its `validate_single_value`
accepts any value). -/
def c10_required_validator : CellValidator :=
  { cell_name := "ISRC", required := true, repeated := false,
    cell_type := some CellType.string, expected_value := "a string",
    validate_single_value := fun value _ _ _ => Except.ok (PyValue.str value) }

/-! ## Enumerated-value resolution (`parsers/dsrf_schema_parser.py`,
claim C6) -/

/-- An XML element as `xml.etree.ElementTree` presents it: a tag, an
attribute dictionary, and child elements (`element[i]` indexes the
children). -/
inductive XmlElement where
  | mk (tag : String) (attrib : List (String × String))
      (children : List XmlElement)

def XmlElement.tag : XmlElement → String
  | .mk t _ _ => t

def XmlElement.attrib : XmlElement → List (String × String)
  | .mk _ a _ => a

def XmlElement.children : XmlElement → List XmlElement
  | .mk _ _ c => c

/-- `constants.XSD_TAG_PREFIX` (ElementTree renders namespaced tags in
Clark notation, brace-wrapped). -/
def XSD_TAG_PREFIX : String := "\x7bhttp://www.w3.org/2001/XMLSchema\x7d"

/-- `constants.FIXED_STRING_PREFIX`. -/
def FIXED_STRING_PREFIX : String := "avs:"

def charsContain (pattern : List Char) : List Char → Bool
  | [] => charsLeadWith pattern []
  | c :: rest => charsLeadWith pattern (c :: rest) || charsContain pattern rest

/-- Python `pattern in s` on strings. -/
def py_in_str (pattern s : String) : Bool :=
  charsContain pattern.toList s.toList

/-- Python dict assignment `d[key] = v`: replace in place, or append a
new binding. -/
def dictSet {α : Type} : List (String × α) → String → α → List (String × α)
  | [], key, v => [(key, v)]
  | (k, old) :: rest, key, v =>
    if k == key then (k, v) :: rest else (k, old) :: dictSet rest key v

/-- `XsdParsingFailure.__str__` from `error.py`. -/
def xsd_parsing_failure_str (xsd_file_name error : String) : String :=
  "Unexpected error while parsing the xsd file " ++ xsd_file_name ++
    " (error = " ++ error ++ ")."

/-- The `for allowed_value in element[1]` loop of
`get_fixed_string_values`: collect each child's `value` attribute;
`none` renders the `KeyError` of a missing attribute (caught by the
surrounding `try`). -/
def collect_enumeration_values : List XmlElement → Option (List String)
  | [] => some []
  | el :: rest =>
    match dictGet el.attrib "value" with
    | Option.none => Option.none
    | some v =>
      match collect_enumeration_values rest with
      | some vs => some (v :: vs)
      | Option.none => Option.none

/-- The `for element in root` loop of
`DsrfSchemaParser.get_fixed_string_values`: every `simpleType` gets an
entry (initialized to `[]`) holding the literal enumeration values of
its second child; `IndexError`/`KeyError` inside the loop body become
an `XsdParsingFailure`; a missing `name` attribute raises an uncaught
`KeyError`. -/
def get_fixed_string_values_loop (avs_xsd_file_name : String) :
    List XmlElement → List (String × List String) →
    Except PyErr (List (String × List String))
  | [], d => Except.ok d
  | el :: rest, d =>
    if el.tag == XSD_TAG_PREFIX ++ "simpleType" then
      match dictGet el.attrib "name" with
      | Option.none => Except.error (PyErr.keyError "name")
      | some element_name =>
        let d := dictSet d element_name []
        match el.children.get? 1 with
        | Option.none =>
          Except.error (PyErr.validationError (xsd_parsing_failure_str
            avs_xsd_file_name
            ("Malformed AVS xsd element: " ++ element_name ++ ".")))
        | some second =>
          match collect_enumeration_values second.children with
          | Option.none =>
            Except.error (PyErr.validationError (xsd_parsing_failure_str
              avs_xsd_file_name
              ("Malformed AVS xsd element: " ++ element_name ++ ".")))
          | some vals =>
            get_fixed_string_values_loop avs_xsd_file_name rest
              (dictSet d element_name vals)
    else get_fixed_string_values_loop avs_xsd_file_name rest d

/-- `DsrfSchemaParser.get_fixed_string_values`. -/
def get_fixed_string_values (avs_xsd_file_name : String)
    (root : XmlElement) : Except PyErr (List (String × List String)) :=
  get_fixed_string_values_loop avs_xsd_file_name root.children []

/-- The `for member_type in member_types.split()` loop of
`parse_union_fixed_strings`:
`fixed_string_dict[element_name].extend(fixed_string_dict[member_type])`;
a member absent from the dict raises an uncaught `KeyError`. -/
def extend_members : List String → String → List (String × List String) →
    Except PyErr (List (String × List String))
  | [], _, d => Except.ok d
  | member :: more, element_name, d =>
    match dictGet d member with
    | Option.none => Except.error (PyErr.keyError member)
    | some member_vals =>
      match dictGet d element_name with
      | Option.none => Except.error (PyErr.keyError element_name)
      | some cur =>
        extend_members more element_name
          (dictSet d element_name (cur ++ member_vals))

/-- The `for element in root` loop of
`DsrfSchemaParser.parse_union_fixed_strings`: a single pass in document
order; for each `simpleType` whose second child is a union, strip the
`avs:` prefix from `memberTypes`, split on whitespace, and extend the
union's current entry with each member's current value list.
`element[1]` on a short element raises an uncaught `IndexError`. -/
def parse_union_fixed_strings_loop :
    List XmlElement → List (String × List String) →
    Except PyErr (List (String × List String))
  | [], d => Except.ok d
  | el :: rest, d =>
    if el.tag == XSD_TAG_PREFIX ++ "simpleType" then
      match dictGet el.attrib "name" with
      | Option.none => Except.error (PyErr.keyError "name")
      | some element_name =>
        match el.children.get? 1 with
        | Option.none => Except.error PyErr.indexError
        | some second =>
          if py_in_str "union" second.tag then
            match dictGet second.attrib "memberTypes" with
            | Option.none => Except.error (PyErr.keyError "memberTypes")
            | some member_types_raw =>
              let member_types :=
                py_split_ws (py_remove member_types_raw FIXED_STRING_PREFIX)
              match extend_members member_types element_name d with
              | Except.ok d2 => parse_union_fixed_strings_loop rest d2
              | Except.error e => Except.error e
          else parse_union_fixed_strings_loop rest d
    else parse_union_fixed_strings_loop rest d

/-- `DsrfSchemaParser.parse_union_fixed_strings`. -/
def parse_union_fixed_strings (root : XmlElement)
    (fixed_string_dict : List (String × List String)) :
    Except PyErr (List (String × List String)) :=
  parse_union_fixed_strings_loop root.children fixed_string_dict

/-- `DsrfSchemaParser.parse_fixed_strings` (minus the file read): the
literal pass, then the single union pass. -/
def parse_fixed_strings (avs_xsd_file_name : String) (root : XmlElement) :
    Except PyErr (List (String × List String)) :=
  match get_fixed_string_values avs_xsd_file_name root with
  | Except.ok fixed_string_dict =>
    parse_union_fixed_strings root fixed_string_dict
  | Except.error e => Except.error e

/-- An `xs:annotation` child (elements' first child in AVS schemas). -/
def avs_annot : XmlElement :=
  XmlElement.mk (XSD_TAG_PREFIX ++ "annotation") [] []

/-- A `simpleType` with literal enumeration values. -/
def avs_enum_type (name : String) (values : List String) : XmlElement :=
  XmlElement.mk (XSD_TAG_PREFIX ++ "simpleType") [("name", name)]
    [avs_annot,
     XmlElement.mk (XSD_TAG_PREFIX ++ "restriction") []
       (values.map (fun v =>
         XmlElement.mk (XSD_TAG_PREFIX ++ "enumeration") [("value", v)] []))]

/-- A `simpleType` declared as a union of member types. -/
def avs_union_type (name members : String) : XmlElement :=
  XmlElement.mk (XSD_TAG_PREFIX ++ "simpleType") [("name", name)]
    [avs_annot,
     XmlElement.mk (XSD_TAG_PREFIX ++ "union") [("memberTypes", members)] []]

/-- An AVS document in which union `UseUnion` refers to union
`SubUnion`, declared later in the document. -/
def avs_forward_union_doc : XmlElement :=
  XmlElement.mk "root" []
    [avs_union_type "UseUnion" "avs:SubUnion",
     avs_union_type "SubUnion" "avs:Base",
     avs_enum_type "Base" ["x"]]

/-- An AVS document whose union refers to a member type that does not
exist. -/
def avs_absent_member_doc : XmlElement :=
  XmlElement.mk "root" [] [avs_union_type "UseUnion" "avs:Missing"]

/-- An AVS document whose union members are plain enumerations. -/
def avs_ok_union_doc : XmlElement :=
  XmlElement.mk "root" []
    [avs_enum_type "A" ["a1", "a2"],
     avs_enum_type "B" ["b1"],
     avs_union_type "C" "avs:A avs:B"]

theorem _is_row_matching_lt {rows : List Row} {index : Nat}
    {node_type : Option String} (h : _is_row_matching rows index node_type = true) :
    index < rows.length := by
  unfold _is_row_matching at h
  rw [Bool.and_eq_true] at h
  exact of_decide_eq_true h.1

/-! ## Fuel monotonicity: once enough fuel is supplied, the result is
fixed.  This justifies reading `validate_node fuel …` at any
sufficiently large `fuel` as "the" result of the Python functions. -/
theorem leaf_loop_mono : ∀ (fuel min_occurs : Nat) (max_occurs : MaxOcc)
    (row_type : Option String) (rows : List Row) (index occurs n : Nat),
    leaf_loop fuel min_occurs max_occurs row_type rows index occurs = some n →
    ∀ fuel2, fuel ≤ fuel2 →
    leaf_loop fuel2 min_occurs max_occurs row_type rows index occurs = some n := by
  intro fuel
  induction fuel with
  | zero =>
    intro minO maxO rt rows index occurs n h
    simp [leaf_loop] at h
  | succ g ih =>
    intro minO maxO rt rows index occurs n h fuel2 hle
    obtain ⟨g2, rfl⟩ : ∃ g2, fuel2 = g2 + 1 := ⟨fuel2 - 1, by omega⟩
    rw [leaf_loop] at h ⊢
    by_cases h1 : MaxOcc.natLt occurs maxO = true
    · rw [if_pos h1] at h ⊢
      by_cases h2 : _is_row_matching rows index rt = true
      · rw [if_pos h2] at h ⊢
        exact ih minO maxO rt rows (index + 1) (occurs + 1) n h g2 (by omega)
      · rw [if_neg h2] at h ⊢
        exact h
    · rw [if_neg h1] at h ⊢
      exact h

theorem engine_mono : ∀ fuel : Nat,
    (∀ node rows index bn fn r fuel2, fuel ≤ fuel2 →
      validate_node fuel node rows index bn fn = some r →
      validate_node fuel2 node rows index bn fn = some r) ∧
    (∀ children rows index bn fn r fuel2, fuel ≤ fuel2 →
      single_choice fuel children rows index bn fn = some r →
      single_choice fuel2 children rows index bn fn = some r) ∧
    (∀ children rows index bn fn total r fuel2, fuel ≤ fuel2 →
      single_sequence fuel children rows index bn fn total = some r →
      single_sequence fuel2 children rows index bn fn total = some r) ∧
    (∀ children min_occurs max_occurs rows index bn fn occurs rv r fuel2,
      fuel ≤ fuel2 →
      choice_loop fuel children min_occurs max_occurs rows index bn fn occurs
        rv = some r →
      choice_loop fuel2 children min_occurs max_occurs rows index bn fn occurs
        rv = some r) ∧
    (∀ children min_occurs max_occurs rows index bn fn occurs rv r fuel2,
      fuel ≤ fuel2 →
      sequence_loop fuel children min_occurs max_occurs rows index bn fn occurs
        rv = some r →
      sequence_loop fuel2 children min_occurs max_occurs rows index bn fn
        occurs rv = some r) := by
  intro fuel
  induction fuel using Nat.strong_induction_on with
  | _ fuel ih =>
    match fuel with
    | 0 =>
      refine ⟨?_, ?_, ?_, ?_, ?_⟩
      · intro node rows index bn fn r fuel2 hle h
        simp [validate_node] at h
      · intro children rows index bn fn r fuel2 hle h
        simp [single_choice] at h
      · intro children rows index bn fn total r fuel2 hle h
        simp [single_sequence] at h
      · intro children minO maxO rows index bn fn occurs rv r fuel2 hle h
        simp [choice_loop] at h
      · intro children minO maxO rows index bn fn occurs rv r fuel2 hle h
        simp [sequence_loop] at h
    | g + 1 =>
      refine ⟨?_, ?_, ?_, ?_, ?_⟩
      · -- validate_node
        intro node rows index bn fn r fuel2 hle h
        obtain ⟨g2, rfl⟩ : ∃ g2, fuel2 = g2 + 1 := ⟨fuel2 - 1, by omega⟩
        have hg : g ≤ g2 := by omega
        simp only [validate_node] at h ⊢
        cases hc : node.children with
        | nil =>
          simp only [hc] at h ⊢
          cases hl : leaf_loop g node.min_occurs node.max_occurs node.row_type
              rows index 0 with
          | none => rw [hl] at h; exact Option.noConfusion h
          | some occurs =>
            rw [hl] at h
            rw [leaf_loop_mono g node.min_occurs node.max_occurs node.row_type
              rows index 0 occurs hl g2 hg]
            exact h
        | cons child rest =>
          simp only [hc] at h ⊢
          by_cases hch : node.is_choice = true
          · rw [if_pos hch] at h ⊢
            exact (ih g (by omega)).2.2.2.1 _ _ _ _ _ _ _ _ _ _ _ hg h
          · rw [if_neg hch] at h ⊢
            by_cases hsq : node.is_sequence = true
            · rw [if_pos hsq] at h ⊢
              exact (ih g (by omega)).2.2.2.2 _ _ _ _ _ _ _ _ _ _ _ hg h
            · rw [if_neg hsq] at h ⊢
              cases hv : validate_node g child rows index bn fn with
              | none => rw [hv] at h; exact Option.noConfusion h
              | some res =>
                rw [hv] at h
                rw [(ih g (by omega)).1 _ _ _ _ _ _ _ hg hv]
                exact h
      · -- single_choice
        intro children rows index bn fn r fuel2 hle h
        obtain ⟨g2, rfl⟩ : ∃ g2, fuel2 = g2 + 1 := ⟨fuel2 - 1, by omega⟩
        have hg : g ≤ g2 := by omega
        cases children with
        | nil => simpa [single_choice] using h
        | cons child rest =>
          simp only [single_choice] at h ⊢
          cases hv : validate_node g child rows index bn fn with
          | none => rw [hv] at h; exact Option.noConfusion h
          | some res =>
            rw [hv] at h
            rw [(ih g (by omega)).1 _ _ _ _ _ _ _ hg hv]
            cases res with
            | error e => exact h
            | ok v =>
              show (if (v != 0) = true then some (Except.ok v)
                else single_choice g2 rest rows index bn fn) = some r
              replace h : (if (v != 0) = true then some (Except.ok v)
                  else single_choice g rest rows index bn fn) = some r := h
              by_cases hv0 : (v != 0) = true
              · rw [if_pos hv0] at h ⊢; exact h
              · rw [if_neg hv0] at h ⊢
                exact (ih g (by omega)).2.1 _ _ _ _ _ _ _ hg h
      · -- single_sequence
        intro children rows index bn fn total r fuel2 hle h
        obtain ⟨g2, rfl⟩ : ∃ g2, fuel2 = g2 + 1 := ⟨fuel2 - 1, by omega⟩
        have hg : g ≤ g2 := by omega
        cases children with
        | nil => simpa [single_sequence] using h
        | cons child rest =>
          simp only [single_sequence] at h ⊢
          cases hv : validate_node g child rows index bn fn with
          | none => rw [hv] at h; exact Option.noConfusion h
          | some res =>
            rw [hv] at h
            rw [(ih g (by omega)).1 _ _ _ _ _ _ _ hg hv]
            cases res with
            | error e => exact h
            | ok v =>
              show (if (v == 0 && child.min_occurs != 0) = true
                then some (Except.ok 0)
                else single_sequence g2 rest rows (index + v) bn fn
                  (total + v)) = some r
              replace h : (if (v == 0 && child.min_occurs != 0) = true
                  then some (Except.ok 0)
                  else single_sequence g rest rows (index + v) bn fn
                    (total + v)) = some r := h
              by_cases hv0 : (v == 0 && child.min_occurs != 0) = true
              · rw [if_pos hv0] at h ⊢; exact h
              · rw [if_neg hv0] at h ⊢
                exact (ih g (by omega)).2.2.1 _ _ _ _ _ _ _ _ hg h
      · -- choice_loop
        intro children minO maxO rows index bn fn occurs rv r fuel2 hle h
        obtain ⟨g2, rfl⟩ : ∃ g2, fuel2 = g2 + 1 := ⟨fuel2 - 1, by omega⟩
        have hg : g ≤ g2 := by omega
        simp only [choice_loop] at h ⊢
        by_cases h1 : MaxOcc.natLt occurs maxO = true
        · rw [if_pos h1] at h ⊢
          cases hsc : single_choice g children rows index bn fn with
          | none => rw [hsc] at h; exact Option.noConfusion h
          | some res =>
            rw [hsc] at h
            rw [(ih g (by omega)).2.1 _ _ _ _ _ _ _ hg hsc]
            cases res with
            | error e => exact h
            | ok nr =>
              show (if (nr == 0) = true
                then if occurs < minO then some (Except.ok 0)
                  else some (Except.ok (rv + nr))
                else choice_loop g2 children minO maxO rows (index + nr) bn fn
                  (occurs + 1) (rv + nr)) = some r
              replace h : (if (nr == 0) = true
                  then if occurs < minO then some (Except.ok 0)
                    else some (Except.ok (rv + nr))
                  else choice_loop g children minO maxO rows (index + nr) bn fn
                    (occurs + 1) (rv + nr)) = some r := h
              by_cases hnr : (nr == 0) = true
              · rw [if_pos hnr] at h ⊢; exact h
              · rw [if_neg hnr] at h ⊢
                exact (ih g (by omega)).2.2.2.1 _ _ _ _ _ _ _ _ _ _ _ hg h
        · rw [if_neg h1] at h ⊢; exact h
      · -- sequence_loop
        intro children minO maxO rows index bn fn occurs rv r fuel2 hle h
        obtain ⟨g2, rfl⟩ : ∃ g2, fuel2 = g2 + 1 := ⟨fuel2 - 1, by omega⟩
        have hg : g ≤ g2 := by omega
        simp only [sequence_loop] at h ⊢
        by_cases h1 : MaxOcc.natLt occurs maxO = true
        · rw [if_pos h1] at h ⊢
          cases hss : single_sequence g children rows index bn fn 0 with
          | none => rw [hss] at h; exact Option.noConfusion h
          | some res =>
            rw [hss] at h
            rw [(ih g (by omega)).2.2.1 _ _ _ _ _ _ _ _ hg hss]
            cases res with
            | error e => exact h
            | ok nr =>
              show (if (nr == 0) = true
                then if occurs < minO then some (Except.ok 0)
                  else some (Except.ok rv)
                else sequence_loop g2 children minO maxO rows (index + nr) bn
                  fn (occurs + 1) (rv + nr)) = some r
              replace h : (if (nr == 0) = true
                  then if occurs < minO then some (Except.ok 0)
                    else some (Except.ok rv)
                  else sequence_loop g children minO maxO rows (index + nr) bn
                    fn (occurs + 1) (rv + nr)) = some r := h
              by_cases hnr : (nr == 0) = true
              · rw [if_pos hnr] at h ⊢; exact h
              · rw [if_neg hnr] at h ⊢
                exact (ih g (by omega)).2.2.2.2 _ _ _ _ _ _ _ _ _ _ _ hg h
        · rw [if_neg h1] at h ⊢; exact h

theorem validate_node_mono {fuel : Nat} {node : Node} {rows : List Row}
    {index : Nat} {bn fn : Int} {r : Except VError Nat}
    (h : validate_node fuel node rows index bn fn = some r) :
    ∀ fuel2, fuel ≤ fuel2 → validate_node fuel2 node rows index bn fn = some r :=
  fun fuel2 hle => (engine_mono fuel).1 node rows index bn fn r fuel2 hle h

/-- Claim C4, counterexample: the claim says every bound pair outside the
four canonical shapes — e.g. `(0,5)` — renders as the empty string, but
`Node.get_quantification` renders `(0,5)` as `*` (any `min_occurs = 0`
with `max_occurs ≠ 1` takes the `*` branch). -/
theorem claim_C4_counterexample :
    Node.get_quantification
        (Node.mk 0 (MaxOcc.fin 5) false false [] (some "AS01")) = "*" ∧
    claimed_quantification 0 (MaxOcc.fin 5) = "" ∧
    ("*" : String) ≠ "" :=
  ⟨rfl, rfl, by decide⟩

/-- Claim C4, amended: the rendered quantifier suffix is `?` for (0,1),
`*` for every pair with `min_occurs = 0` and `max_occurs ≠ 1` (so also
(0,5)), `+` for every pair with `min_occurs = 1` and `max_occurs > 1`
(so also (1,5)), and the empty string otherwise — in particular for
(1,1), for `min_occurs = 1` with `max_occurs ≤ 1`, and for every pair
with `min_occurs ≥ 2` such as (2,3). -/
theorem claim_C4_amended (node : Node) :
    (node.min_occurs = 0 → node.max_occurs = MaxOcc.fin 1 →
      node.get_quantification = "?") ∧
    (node.min_occurs = 0 → node.max_occurs ≠ MaxOcc.fin 1 →
      node.get_quantification = "*") ∧
    (node.min_occurs = 1 → MaxOcc.natLt 1 node.max_occurs = true →
      node.get_quantification = "+") ∧
    (node.min_occurs = 1 → MaxOcc.natLt 1 node.max_occurs = false →
      node.get_quantification = "") ∧
    (2 ≤ node.min_occurs → node.get_quantification = "") := by
  unfold Node.get_quantification
  refine ⟨?_, ?_, ?_, ?_, ?_⟩
  · intro h1 h2
    simp [h1, h2]
  · intro h1 h2
    simp [h1, h2]
  · intro h1 h2
    simp [h1, h2]
  · intro h1 h2
    simp [h1, h2]
  · intro h1
    have e0 : node.min_occurs ≠ 0 := by omega
    have e1 : node.min_occurs ≠ 1 := by omega
    simp [e0, e1]

/-- Witness for the amended C4, exercising all five cases at concrete
bounds: (0,1), (0,∞), (1,5), (1,1), (2,3). -/
theorem claim_C4_amended_witness :
    Node.get_quantification (Node.mk 0 (MaxOcc.fin 1) false false []
      Option.none) = "?" ∧
    Node.get_quantification (Node.mk 0 MaxOcc.inf false false []
      Option.none) = "*" ∧
    Node.get_quantification (Node.mk 1 (MaxOcc.fin 5) false false []
      Option.none) = "+" ∧
    Node.get_quantification (Node.mk 1 (MaxOcc.fin 1) false false []
      Option.none) = "" ∧
    Node.get_quantification (Node.mk 2 (MaxOcc.fin 3) false false []
      Option.none) = "" :=
  ⟨(claim_C4_amended _).1 rfl rfl,
   (claim_C4_amended _).2.1 rfl (by decide),
   (claim_C4_amended _).2.2.1 rfl rfl,
   (claim_C4_amended _).2.2.2.1 rfl rfl,
   (claim_C4_amended _).2.2.2.2 (by decide)⟩

/-- Claim C2: against the example grammar, `[AS01, MW01, RU01, SU03,
LI01, LI01]` matches with all 6 rows consumed and no failure raised,
while `[MW01, RU01, SU03]` drives the root to its structural-failure
`raise` (the choice cannot open on MW01 without a preceding AS01, so 0
of 3 rows validate). -/
theorem claim_C2_example_grammar (fuel : Nat) (hfuel : 64 ≤ fuel) :
    validate_node fuel example_profile_root example_rows_valid 0 3 7 =
      some (Except.ok 6) ∧
    validate_node fuel example_profile_root example_rows_invalid 0 3 7 =
      some (Except.error (VError.raiseCall
        [PyArg.nat 1, PyArg.nat 0, PyArg.int 3, PyArg.int 7,
         PyArg.node example_profile_root,
         PyArg.rows example_rows_invalid])) := by
  constructor
  · exact validate_node_mono
      (show validate_node 64 example_profile_root example_rows_valid 0 3 7 =
        some (Except.ok 6) from rfl) fuel hfuel
  · exact validate_node_mono
      (show validate_node 64 example_profile_root example_rows_invalid 0 3 7 =
        some (Except.error (VError.raiseCall
          [PyArg.nat 1, PyArg.nat 0, PyArg.int 3, PyArg.int 7,
           PyArg.node example_profile_root,
           PyArg.rows example_rows_invalid])) from rfl) fuel hfuel

/-- Witness for C2 at the concrete fuel 64. -/
theorem claim_C2_example_grammar_witness :
    64 ≤ 64 ∧
    (validate_node 64 example_profile_root example_rows_valid 0 3 7 =
      some (Except.ok 6) ∧
    validate_node 64 example_profile_root example_rows_invalid 0 3 7 =
      some (Except.error (VError.raiseCall
        [PyArg.nat 1, PyArg.nat 0, PyArg.int 3, PyArg.int 7,
         PyArg.node example_profile_root,
         PyArg.rows example_rows_invalid]))) :=
  ⟨le_refl 64, claim_C2_example_grammar 64 (le_refl 64)⟩

/-- Claim C1: on the failing input the Root match reaches the
structural-failure `raise` with six positional arguments — but
`BlockConformanceFailure.__init__` in `conformance/error.py` accepts
only five, so binding them fails (a Python `TypeError`): no failure
object carrying the claimed fields is ever constructed. -/
theorem claim_C1_raise_arity :
    validate_node 20 test_root test_rows 0 4 8 =
      some (Except.error (VError.raiseCall test_raise_args)) ∧
    test_raise_args.length = 6 ∧
    blockConformanceFailure_init test_raise_args = Option.none :=
  ⟨rfl, rfl, rfl⟩

/-! ## Leaf matching bounds (claim C3) -/
theorem MaxOcc.natLt_of_lt_natLe {a b : Nat} {m : MaxOcc} (hab : a < b)
    (hb : MaxOcc.natLe b m = true) : MaxOcc.natLt a m = true := by
  cases m with
  | fin n =>
    simp [MaxOcc.natLe] at hb
    simp [MaxOcc.natLt]
    omega
  | inf => rfl

theorem MaxOcc.natLe_of_natLt {a : Nat} {m : MaxOcc}
    (h : MaxOcc.natLt a m = true) : MaxOcc.natLe a m = true := by
  cases m with
  | fin n =>
    simp [MaxOcc.natLt] at h
    simp [MaxOcc.natLe]
    omega
  | inf => rfl

/-- Full characterization of the leaf loop on a row list with exactly
`k` consecutive matching rows at `index` (provided `occurs + k` does not
exceed `max_occurs` and there is enough fuel): the loop returns `0` if
it stops short of `min_occurs` on a mismatch, and `occurs + k`
otherwise. -/
theorem leaf_loop_exact : ∀ (k min_occurs : Nat) (max_occurs : MaxOcc)
    (row_type : Option String) (rows : List Row) (index occurs fuel : Nat),
    (∀ j, j < k → _is_row_matching rows (index + j) row_type = true) →
    _is_row_matching rows (index + k) row_type = false →
    MaxOcc.natLe (occurs + k) max_occurs = true →
    k < fuel →
    leaf_loop fuel min_occurs max_occurs row_type rows index occurs =
      some (if occurs + k < min_occurs ∧
          MaxOcc.natLt (occurs + k) max_occurs = true
        then 0 else occurs + k) := by
  intro k
  induction k with
  | zero =>
    intro minO maxO rt rows index occurs fuel hmat hend hle hfuel
    obtain ⟨g, rfl⟩ : ∃ g, fuel = g + 1 := ⟨fuel - 1, by omega⟩
    rw [leaf_loop]
    have hend' : _is_row_matching rows index rt = false := by
      simpa using hend
    by_cases h1 : MaxOcc.natLt occurs maxO = true
    · rw [if_pos h1, if_neg (by simp [hend'])]
      by_cases hm : occurs < minO
      · rw [if_pos hm]
        simp [hm, h1]
      · rw [if_neg hm]
        simp [hm]
    · rw [if_neg h1]
      have h1' : MaxOcc.natLt occurs maxO = false := by
        simpa using h1
      simp [h1']
  | succ k ih =>
    intro minO maxO rt rows index occurs fuel hmat hend hle hfuel
    obtain ⟨g, rfl⟩ : ∃ g, fuel = g + 1 := ⟨fuel - 1, by omega⟩
    have hlt : MaxOcc.natLt occurs maxO = true :=
      MaxOcc.natLt_of_lt_natLe (by omega) hle
    have hm0 : _is_row_matching rows index rt = true := by
      simpa using hmat 0 (by omega)
    rw [leaf_loop, if_pos hlt, if_pos hm0]
    have hmat' : ∀ j, j < k → _is_row_matching rows (index + 1 + j) rt = true := by
      intro j hj
      have := hmat (j + 1) (by omega)
      rwa [show index + (j + 1) = index + 1 + j by omega] at this
    have hend'' : _is_row_matching rows (index + 1 + k) rt = false := by
      have := hend
      rwa [show index + (k + 1) = index + 1 + k by omega] at this
    have hle' : MaxOcc.natLe (occurs + 1 + k) maxO = true := by
      rwa [show occurs + 1 + k = occurs + (k + 1) by omega]
    rw [ih minO maxO rt rows (index + 1) (occurs + 1) g hmat' hend'' hle'
      (by omega)]
    rw [show occurs + 1 + k = occurs + (k + 1) by omega]

/-- Claim C3: a leaf node with bounds `(min_occurs, max_occurs)`
(`min_occurs ≤ max_occurs`) against a row list with exactly `k`
consecutive rows of its row type at the starting position consumes
exactly `k` rows when `min_occurs ≤ k ≤ max_occurs`, and returns zero
consumed (failure) when `k < min_occurs`. -/
theorem claim_C3_leaf_bounds (min_occurs : Nat) (max_occurs : MaxOcc)
    (is_sequence is_choice : Bool) (row_type : String) (rows : List Row)
    (index k fuel : Nat) (block_number file_number : Int)
    (hmat : ∀ j, j < k →
      _is_row_matching rows (index + j) (some row_type) = true)
    (hend : _is_row_matching rows (index + k) (some row_type) = false)
    (hvalid : MaxOcc.natLe min_occurs max_occurs = true)
    (hfuel : k + 1 < fuel) :
    (min_occurs ≤ k ∧ MaxOcc.natLe k max_occurs = true →
      validate_node fuel
        (Node.mk min_occurs max_occurs is_sequence is_choice []
          (some row_type)) rows index block_number file_number =
        some (Except.ok k)) ∧
    (k < min_occurs →
      validate_node fuel
        (Node.mk min_occurs max_occurs is_sequence is_choice []
          (some row_type)) rows index block_number file_number =
        some (Except.ok 0)) := by
  obtain ⟨g, rfl⟩ : ∃ g, fuel = g + 1 := ⟨fuel - 1, by omega⟩
  rw [validate_node]
  constructor
  · rintro ⟨hmin, hkmax⟩
    have hloop := leaf_loop_exact k min_occurs max_occurs (some row_type)
      rows index 0 g hmat hend (by simpa using hkmax) (by omega)
    have hval : (if 0 + k < min_occurs ∧
        MaxOcc.natLt (0 + k) max_occurs = true then 0 else 0 + k) = k := by
      rw [if_neg (show ¬(0 + k < min_occurs ∧
        MaxOcc.natLt (0 + k) max_occurs = true) from
        fun hcon => absurd hcon.1 (by omega))]
      omega
    rw [hval] at hloop
    show (match leaf_loop g min_occurs max_occurs (some row_type) rows index 0
        with
      | Option.none => Option.none
      | some occurs => some (Except.ok occurs)) = some (Except.ok k)
    rw [hloop]
  · intro hklt
    have hklt' : MaxOcc.natLt k max_occurs = true :=
      MaxOcc.natLt_of_lt_natLe hklt hvalid
    have hloop := leaf_loop_exact k min_occurs max_occurs (some row_type)
      rows index 0 g hmat hend (by simpa using MaxOcc.natLe_of_natLt hklt')
      (by omega)
    have hval : (if 0 + k < min_occurs ∧
        MaxOcc.natLt (0 + k) max_occurs = true then 0 else 0 + k) = 0 := by
      have h1 : 0 + k < min_occurs := by omega
      have h2 : MaxOcc.natLt (0 + k) max_occurs = true := by simpa using hklt'
      rw [if_pos ⟨h1, h2⟩]
    rw [hval] at hloop
    show (match leaf_loop g min_occurs max_occurs (some row_type) rows index 0
        with
      | Option.none => Option.none
      | some occurs => some (Except.ok occurs)) = some (Except.ok 0)
    rw [hloop]

/-- Witness for C3: a leaf with bounds (1,2) on a list with exactly two
matching rows consumes exactly 2. -/
theorem claim_C3_leaf_bounds_witness :
    (1 ≤ 2 ∧ MaxOcc.natLe 2 (MaxOcc.fin 2) = true) ∧
    validate_node 10 (Node.mk 1 (MaxOcc.fin 2) false false [] (some "AS01"))
      c3_rows 0 3 7 = some (Except.ok 2) :=
  ⟨⟨by omega, by decide⟩,
   (claim_C3_leaf_bounds 1 (MaxOcc.fin 2) false false "AS01" c3_rows 0 2 10 3 7
     (by decide) (by decide) (by decide) (by omega)).1 ⟨by omega, by decide⟩⟩

/-! ## Choice is first-match-wins (claim C5) -/

/-- Claim C5: within one repetition, `single_choice` tries the children
in declaration order and the first child consuming more than zero rows
determines the result — children after it are never consulted, so the
returned count is the first declared match even when a later child
would consume more rows. -/
theorem claim_C5_choice_first_match (base_fuel : Nat) (pre : List Node)
    (child : Node) (post : List Node) (rows : List Row) (index : Nat)
    (block_number file_number : Int) (n : Nat)
    (hpre : ∀ c ∈ pre, ∀ f, base_fuel ≤ f →
      validate_node f c rows index block_number file_number =
        some (Except.ok 0))
    (hchild : ∀ f, base_fuel ≤ f →
      validate_node f child rows index block_number file_number =
        some (Except.ok n))
    (hn : n ≠ 0) :
    ∀ f, base_fuel + pre.length + 1 ≤ f →
      single_choice f (pre ++ child :: post) rows index block_number
        file_number = some (Except.ok n) := by
  revert hpre
  induction pre with
  | nil =>
    intro hpre f hf
    obtain ⟨g, rfl⟩ : ∃ g, f = g + 1 := ⟨f - 1, by omega⟩
    rw [List.nil_append]
    simp only [single_choice]
    rw [hchild g (by rw [List.length_nil] at hf; omega)]
    show (if (n != 0) = true then some (Except.ok n)
      else single_choice g post rows index block_number file_number) =
      some (Except.ok n)
    rw [if_pos (by simpa using hn)]
  | cons c pre ih =>
    intro hpre f hf
    obtain ⟨g, rfl⟩ : ∃ g, f = g + 1 := ⟨f - 1, by omega⟩
    rw [List.cons_append]
    simp only [single_choice]
    rw [hpre c (List.mem_cons_self c pre) g
      (by rw [List.length_cons] at hf; omega)]
    show (if ((0 : Nat) != 0) = true then some (Except.ok 0)
      else single_choice g (pre ++ child :: post) rows index block_number
        file_number) = some (Except.ok n)
    rw [if_neg (by simp)]
    exact ih (fun c2 hc2 => hpre c2 (List.mem_cons_of_mem _ hc2)) g
      (by rw [List.length_cons] at hf; omega)

/-- Witness for C5: with children `[AS02{1,1}, AS02{1,2}]` on two AS02
rows, the choice returns the first child's count 1 even though the
second child alone would consume 2. -/
theorem claim_C5_choice_first_match_witness :
    single_choice 5 [leaf_node "AS02" 1 (MaxOcc.fin 1),
      leaf_node "AS02" 1 (MaxOcc.fin 2)] c5_rows 0 3 7 =
      some (Except.ok 1) ∧
    validate_node 5 (leaf_node "AS02" 1 (MaxOcc.fin 2)) c5_rows 0 3 7 =
      some (Except.ok 2) :=
  ⟨claim_C5_choice_first_match 3 [] (leaf_node "AS02" 1 (MaxOcc.fin 1))
      [leaf_node "AS02" 1 (MaxOcc.fin 2)] c5_rows 0 3 7 1
      (fun c hc => absurd hc (List.not_mem_nil c))
      (fun f hf => validate_node_mono
        (show validate_node 3 (leaf_node "AS02" 1 (MaxOcc.fin 1)) c5_rows 0 3 7
          = some (Except.ok 1) from rfl) f hf)
      (by omega) 5 (by decide),
   rfl⟩

/-! ## Termination of the matching engine (claim C9)

The substance of termination for the Python `while` loops: every
repetition that keeps a loop going consumes at least one row, so a
successful repetition count is bounded by the remaining rows; hence a
finite amount of fuel suffices, and past that point the result is
stable. -/
theorem leaf_loop_le : ∀ (fuel min_occurs : Nat) (max_occurs : MaxOcc)
    (row_type : Option String) (rows : List Row) (index occurs n : Nat),
    leaf_loop fuel min_occurs max_occurs row_type rows index occurs = some n →
    n ≤ occurs + (rows.length - index) := by
  intro fuel
  induction fuel with
  | zero =>
    intro minO maxO rt rows index occurs n h
    simp [leaf_loop] at h
  | succ g ih =>
    intro minO maxO rt rows index occurs n h
    rw [leaf_loop] at h
    by_cases h1 : MaxOcc.natLt occurs maxO = true
    · rw [if_pos h1] at h
      by_cases h2 : _is_row_matching rows index rt = true
      · rw [if_pos h2] at h
        have hlt := _is_row_matching_lt h2
        have := ih minO maxO rt rows (index + 1) (occurs + 1) n h
        omega
      · rw [if_neg h2] at h
        by_cases h3 : occurs < minO
        · rw [if_pos h3] at h
          cases h
          omega
        · rw [if_neg h3] at h
          cases h
          omega
    · rw [if_neg h1] at h
      cases h
      omega

theorem engine_le : ∀ fuel : Nat,
    (∀ node rows index bn fn n,
      validate_node fuel node rows index bn fn = some (Except.ok n) →
      n ≤ rows.length - index) ∧
    (∀ children rows index bn fn n,
      single_choice fuel children rows index bn fn = some (Except.ok n) →
      n ≤ rows.length - index) ∧
    (∀ children rows index bn fn total n,
      single_sequence fuel children rows index bn fn total =
        some (Except.ok n) →
      n ≤ total + (rows.length - index)) ∧
    (∀ children min_occurs max_occurs rows index bn fn occurs rv n,
      choice_loop fuel children min_occurs max_occurs rows index bn fn occurs
        rv = some (Except.ok n) →
      n ≤ rv + (rows.length - index)) ∧
    (∀ children min_occurs max_occurs rows index bn fn occurs rv n,
      sequence_loop fuel children min_occurs max_occurs rows index bn fn
        occurs rv = some (Except.ok n) →
      n ≤ rv + (rows.length - index)) := by
  intro fuel
  induction fuel using Nat.strong_induction_on with
  | _ fuel ih =>
    match fuel with
    | 0 =>
      refine ⟨?_, ?_, ?_, ?_, ?_⟩
      · intro node rows index bn fn n h
        simp [validate_node] at h
      · intro children rows index bn fn n h
        simp [single_choice] at h
      · intro children rows index bn fn total n h
        simp [single_sequence] at h
      · intro children minO maxO rows index bn fn occurs rv n h
        simp [choice_loop] at h
      · intro children minO maxO rows index bn fn occurs rv n h
        simp [sequence_loop] at h
    | g + 1 =>
      refine ⟨?_, ?_, ?_, ?_, ?_⟩
      · -- validate_node
        intro node rows index bn fn n h
        simp only [validate_node] at h
        cases hc : node.children with
        | nil =>
          simp only [hc] at h
          cases hl : leaf_loop g node.min_occurs node.max_occurs
              node.row_type rows index 0 with
          | none => rw [hl] at h; exact Option.noConfusion h
          | some occurs =>
            rw [hl] at h
            replace h : some (Except.ok occurs) = some (Except.ok n) := h
            have := leaf_loop_le g node.min_occurs node.max_occurs
              node.row_type rows index 0 occurs hl
            cases h
            omega
        | cons child rest =>
          simp only [hc] at h
          by_cases hch : node.is_choice = true
          · rw [if_pos hch] at h
            have := (ih g (by omega)).2.2.2.1 _ _ _ _ _ _ _ _ _ _ h
            omega
          · rw [if_neg hch] at h
            by_cases hsq : node.is_sequence = true
            · rw [if_pos hsq] at h
              have := (ih g (by omega)).2.2.2.2 _ _ _ _ _ _ _ _ _ _ h
              omega
            · rw [if_neg hsq] at h
              cases hv : validate_node g child rows index bn fn with
              | none => rw [hv] at h; exact Option.noConfusion h
              | some res =>
                rw [hv] at h
                cases res with
                | error e =>
                  replace h : some (Except.error e) = some (Except.ok n) := h
                  cases h
                | ok rv =>
                  replace h : (if (!rows.isEmpty && rv != rows.length) = true
                    then match rows[index]? with
                      | some row =>
                        some (Except.error (VError.raiseCall
                          [PyArg.nat row.row_number, PyArg.nat rv,
                           PyArg.int bn, PyArg.int fn,
                           PyArg.node node, PyArg.rows rows]))
                      | Option.none => some (Except.error VError.indexError)
                    else some (Except.ok rv)) = some (Except.ok n) := h
                  have hrv := (ih g (by omega)).1 _ _ _ _ _ _ hv
                  by_cases hcond : (!rows.isEmpty && rv != rows.length) = true
                  · rw [if_pos hcond] at h
                    cases hidx : rows[index]? with
                    | none => rw [hidx] at h; cases h
                    | some row => rw [hidx] at h; cases h
                  · rw [if_neg hcond] at h
                    cases h
                    omega
      · -- single_choice
        intro children rows index bn fn n h
        cases children with
        | nil =>
          rw [single_choice] at h
          cases h
          omega
        | cons child rest =>
          rw [single_choice] at h
          cases hv : validate_node g child rows index bn fn with
          | none => rw [hv] at h; exact Option.noConfusion h
          | some res =>
            rw [hv] at h
            cases res with
            | error e =>
              replace h : some (Except.error e) = some (Except.ok n) := h
              cases h
            | ok v =>
              replace h : (if (v != 0) = true then some (Except.ok v)
                else single_choice g rest rows index bn fn) =
                some (Except.ok n) := h
              by_cases hv0 : (v != 0) = true
              · rw [if_pos hv0] at h
                cases h
                exact (ih g (by omega)).1 _ _ _ _ _ _ hv
              · rw [if_neg hv0] at h
                exact (ih g (by omega)).2.1 _ _ _ _ _ _ h
      · -- single_sequence
        intro children rows index bn fn total n h
        cases children with
        | nil =>
          rw [single_sequence] at h
          cases h
          omega
        | cons child rest =>
          rw [single_sequence] at h
          cases hv : validate_node g child rows index bn fn with
          | none => rw [hv] at h; exact Option.noConfusion h
          | some res =>
            rw [hv] at h
            cases res with
            | error e =>
              replace h : some (Except.error e) = some (Except.ok n) := h
              cases h
            | ok v =>
              replace h : (if (v == 0 && child.min_occurs != 0) = true
                then some (Except.ok 0)
                else single_sequence g rest rows (index + v) bn fn
                  (total + v)) = some (Except.ok n) := h
              have hv_le := (ih g (by omega)).1 _ _ _ _ _ _ hv
              by_cases hv0 : (v == 0 && child.min_occurs != 0) = true
              · rw [if_pos hv0] at h
                cases h
                omega
              · rw [if_neg hv0] at h
                have := (ih g (by omega)).2.2.1 _ _ _ _ _ _ _ h
                omega
      · -- choice_loop
        intro children minO maxO rows index bn fn occurs rv n h
        rw [choice_loop] at h
        by_cases h1 : MaxOcc.natLt occurs maxO = true
        · rw [if_pos h1] at h
          cases hsc : single_choice g children rows index bn fn with
          | none => rw [hsc] at h; exact Option.noConfusion h
          | some res =>
            rw [hsc] at h
            cases res with
            | error e =>
              replace h : some (Except.error e) = some (Except.ok n) := h
              cases h
            | ok nr =>
              replace h : (if (nr == 0) = true
                then if occurs < minO then some (Except.ok 0)
                  else some (Except.ok (rv + nr))
                else choice_loop g children minO maxO rows (index + nr) bn fn
                  (occurs + 1) (rv + nr)) = some (Except.ok n) := h
              have hnr_le := (ih g (by omega)).2.1 _ _ _ _ _ _ hsc
              by_cases hnr : (nr == 0) = true
              · rw [if_pos hnr] at h
                have hnr0 : nr = 0 := by simpa using hnr
                by_cases hocc : occurs < minO
                · rw [if_pos hocc] at h
                  cases h
                  omega
                · rw [if_neg hocc] at h
                  cases h
                  omega
              · rw [if_neg hnr] at h
                have := (ih g (by omega)).2.2.2.1 _ _ _ _ _ _ _ _ _ _ h
                omega
        · rw [if_neg h1] at h
          cases h
          omega
      · -- sequence_loop
        intro children minO maxO rows index bn fn occurs rv n h
        rw [sequence_loop] at h
        by_cases h1 : MaxOcc.natLt occurs maxO = true
        · rw [if_pos h1] at h
          cases hss : single_sequence g children rows index bn fn 0 with
          | none => rw [hss] at h; exact Option.noConfusion h
          | some res =>
            rw [hss] at h
            cases res with
            | error e =>
              replace h : some (Except.error e) = some (Except.ok n) := h
              cases h
            | ok nr =>
              replace h : (if (nr == 0) = true
                then if occurs < minO then some (Except.ok 0)
                  else some (Except.ok rv)
                else sequence_loop g children minO maxO rows (index + nr) bn
                  fn (occurs + 1) (rv + nr)) = some (Except.ok n) := h
              have hnr_le := (ih g (by omega)).2.2.1 _ _ _ _ _ _ _ hss
              by_cases hnr : (nr == 0) = true
              · rw [if_pos hnr] at h
                by_cases hocc : occurs < minO
                · rw [if_pos hocc] at h
                  cases h
                  omega
                · rw [if_neg hocc] at h
                  cases h
                  omega
              · rw [if_neg hnr] at h
                have := (ih g (by omega)).2.2.2.2 _ _ _ _ _ _ _ _ _ _ h
                omega
        · rw [if_neg h1] at h
          cases h
          omega

theorem _is_row_matching_ge {rows : List Row} {index : Nat}
    {node_type : Option String} (h : rows.length ≤ index) :
    _is_row_matching rows index node_type = false := by
  cases hm : _is_row_matching rows index node_type
  · rfl
  · exact absurd (_is_row_matching_lt hm) (by omega)

theorem leaf_loop_stable : ∀ (d min_occurs : Nat) (max_occurs : MaxOcc)
    (row_type : Option String) (rows : List Row) (index occurs : Nat),
    rows.length - index ≤ d →
    ∃ fuel n, ∀ f, fuel ≤ f →
      leaf_loop f min_occurs max_occurs row_type rows index occurs = some n := by
  intro d
  induction d with
  | zero =>
    intro minO maxO rt rows index occurs hd
    by_cases h1 : MaxOcc.natLt occurs maxO = true
    · have h2 : _is_row_matching rows index rt = false :=
        _is_row_matching_ge (by omega)
      by_cases h3 : occurs < minO
      · refine ⟨1, 0, ?_⟩
        intro f hf
        obtain ⟨g, rfl⟩ : ∃ g, f = g + 1 := ⟨f - 1, by omega⟩
        rw [leaf_loop, if_pos h1, if_neg (by simp [h2]), if_pos h3]
      · refine ⟨1, occurs, ?_⟩
        intro f hf
        obtain ⟨g, rfl⟩ : ∃ g, f = g + 1 := ⟨f - 1, by omega⟩
        rw [leaf_loop, if_pos h1, if_neg (by simp [h2]), if_neg h3]
    · refine ⟨1, occurs, ?_⟩
      intro f hf
      obtain ⟨g, rfl⟩ : ∃ g, f = g + 1 := ⟨f - 1, by omega⟩
      rw [leaf_loop, if_neg h1]
  | succ d ihd =>
    intro minO maxO rt rows index occurs hd
    by_cases h1 : MaxOcc.natLt occurs maxO = true
    · by_cases h2 : _is_row_matching rows index rt = true
      · have hlt := _is_row_matching_lt h2
        obtain ⟨f1, n, hstable⟩ := ihd minO maxO rt rows (index + 1)
          (occurs + 1) (by omega)
        refine ⟨f1 + 1, n, ?_⟩
        intro f hf
        obtain ⟨g, rfl⟩ : ∃ g, f = g + 1 := ⟨f - 1, by omega⟩
        rw [leaf_loop, if_pos h1, if_pos h2]
        exact hstable g (by omega)
      · by_cases h3 : occurs < minO
        · refine ⟨1, 0, ?_⟩
          intro f hf
          obtain ⟨g, rfl⟩ : ∃ g, f = g + 1 := ⟨f - 1, by omega⟩
          rw [leaf_loop, if_pos h1, if_neg h2, if_pos h3]
        · refine ⟨1, occurs, ?_⟩
          intro f hf
          obtain ⟨g, rfl⟩ : ∃ g, f = g + 1 := ⟨f - 1, by omega⟩
          rw [leaf_loop, if_pos h1, if_neg h2, if_neg h3]
    · refine ⟨1, occurs, ?_⟩
      intro f hf
      obtain ⟨g, rfl⟩ : ∃ g, f = g + 1 := ⟨f - 1, by omega⟩
      rw [leaf_loop, if_neg h1]

theorem single_choice_stable (rows : List Row) (bn fn : Int) :
    ∀ children : List Node,
    (∀ c ∈ children, ∀ index : Nat, ∃ fuel r, ∀ f, fuel ≤ f →
      validate_node f c rows index bn fn = some r) →
    ∀ index : Nat, ∃ fuel r, ∀ f, fuel ≤ f →
      single_choice f children rows index bn fn = some r := by
  intro children
  induction children with
  | nil =>
    intro _ index
    refine ⟨1, Except.ok 0, ?_⟩
    intro f hf
    obtain ⟨g, rfl⟩ : ∃ g, f = g + 1 := ⟨f - 1, by omega⟩
    rw [single_choice]
  | cons child rest ih =>
    intro H index
    obtain ⟨f1, r1, h1⟩ := H child (List.mem_cons_self child rest) index
    cases r1 with
    | error e =>
      refine ⟨f1 + 1, Except.error e, ?_⟩
      intro f hf
      obtain ⟨g, rfl⟩ : ∃ g, f = g + 1 := ⟨f - 1, by omega⟩
      rw [single_choice, h1 g (by omega)]
    | ok v =>
      by_cases hv : (v != 0) = true
      · refine ⟨f1 + 1, Except.ok v, ?_⟩
        intro f hf
        obtain ⟨g, rfl⟩ : ∃ g, f = g + 1 := ⟨f - 1, by omega⟩
        rw [single_choice, h1 g (by omega)]
        show (if (v != 0) = true then some (Except.ok v)
          else single_choice g rest rows index bn fn) = some (Except.ok v)
        rw [if_pos hv]
      · obtain ⟨f2, r2, h2⟩ := ih (fun c hc => H c (List.mem_cons_of_mem _ hc))
          index
        refine ⟨max f1 f2 + 1, r2, ?_⟩
        intro f hf
        obtain ⟨g, rfl⟩ : ∃ g, f = g + 1 := ⟨f - 1, by omega⟩
        rw [single_choice, h1 g (by omega)]
        show (if (v != 0) = true then some (Except.ok v)
          else single_choice g rest rows index bn fn) = some r2
        rw [if_neg hv]
        exact h2 g (by omega)

theorem single_sequence_stable (rows : List Row) (bn fn : Int) :
    ∀ children : List Node,
    (∀ c ∈ children, ∀ index : Nat, ∃ fuel r, ∀ f, fuel ≤ f →
      validate_node f c rows index bn fn = some r) →
    ∀ index total : Nat, ∃ fuel r, ∀ f, fuel ≤ f →
      single_sequence f children rows index bn fn total = some r := by
  intro children
  induction children with
  | nil =>
    intro _ index total
    refine ⟨1, Except.ok total, ?_⟩
    intro f hf
    obtain ⟨g, rfl⟩ : ∃ g, f = g + 1 := ⟨f - 1, by omega⟩
    rw [single_sequence]
  | cons child rest ih =>
    intro H index total
    obtain ⟨f1, r1, h1⟩ := H child (List.mem_cons_self child rest) index
    cases r1 with
    | error e =>
      refine ⟨f1 + 1, Except.error e, ?_⟩
      intro f hf
      obtain ⟨g, rfl⟩ : ∃ g, f = g + 1 := ⟨f - 1, by omega⟩
      rw [single_sequence, h1 g (by omega)]
    | ok v =>
      by_cases hv : (v == 0 && child.min_occurs != 0) = true
      · refine ⟨f1 + 1, Except.ok 0, ?_⟩
        intro f hf
        obtain ⟨g, rfl⟩ : ∃ g, f = g + 1 := ⟨f - 1, by omega⟩
        rw [single_sequence, h1 g (by omega)]
        show (if (v == 0 && child.min_occurs != 0) = true
          then some (Except.ok 0)
          else single_sequence g rest rows (index + v) bn fn (total + v)) =
          some (Except.ok 0)
        rw [if_pos hv]
      · obtain ⟨f2, r2, h2⟩ := ih (fun c hc => H c (List.mem_cons_of_mem _ hc))
          (index + v) (total + v)
        refine ⟨max f1 f2 + 1, r2, ?_⟩
        intro f hf
        obtain ⟨g, rfl⟩ : ∃ g, f = g + 1 := ⟨f - 1, by omega⟩
        rw [single_sequence, h1 g (by omega)]
        show (if (v == 0 && child.min_occurs != 0) = true
          then some (Except.ok 0)
          else single_sequence g rest rows (index + v) bn fn (total + v)) =
          some r2
        rw [if_neg hv]
        exact h2 g (by omega)

theorem choice_loop_stable (rows : List Row) (bn fn : Int)
    (children : List Node) (min_occurs : Nat) (max_occurs : MaxOcc)
    (Hsc : ∀ index : Nat, ∃ fuel r, ∀ f, fuel ≤ f →
      single_choice f children rows index bn fn = some r) :
    ∀ d index occurs rv : Nat, rows.length - index ≤ d →
    ∃ fuel r, ∀ f, fuel ≤ f →
      choice_loop f children min_occurs max_occurs rows index bn fn occurs rv
        = some r := by
  intro d
  induction d with
  | zero =>
    intro index occurs rv hd
    by_cases h1 : MaxOcc.natLt occurs max_occurs = true
    · obtain ⟨f1, r1, h1sc⟩ := Hsc index
      cases r1 with
      | error e =>
        refine ⟨f1 + 1, Except.error e, ?_⟩
        intro f hf
        obtain ⟨g, rfl⟩ : ∃ g, f = g + 1 := ⟨f - 1, by omega⟩
        rw [choice_loop, if_pos h1, h1sc g (by omega)]
      | ok nr =>
        have hnr0 : nr = 0 := by
          have := (engine_le f1).2.1 _ _ _ _ _ _ (h1sc f1 (le_refl f1))
          omega
        have hnrb : (nr == 0) = true := by simp [hnr0]
        by_cases hocc : occurs < min_occurs
        · refine ⟨f1 + 1, Except.ok 0, ?_⟩
          intro f hf
          obtain ⟨g, rfl⟩ : ∃ g, f = g + 1 := ⟨f - 1, by omega⟩
          rw [choice_loop, if_pos h1, h1sc g (by omega)]
          show (if (nr == 0) = true
            then if occurs < min_occurs then some (Except.ok 0)
              else some (Except.ok (rv + nr))
            else choice_loop g children min_occurs max_occurs rows (index + nr)
              bn fn (occurs + 1) (rv + nr)) = some (Except.ok 0)
          rw [if_pos hnrb, if_pos hocc]
        · refine ⟨f1 + 1, Except.ok (rv + nr), ?_⟩
          intro f hf
          obtain ⟨g, rfl⟩ : ∃ g, f = g + 1 := ⟨f - 1, by omega⟩
          rw [choice_loop, if_pos h1, h1sc g (by omega)]
          show (if (nr == 0) = true
            then if occurs < min_occurs then some (Except.ok 0)
              else some (Except.ok (rv + nr))
            else choice_loop g children min_occurs max_occurs rows (index + nr)
              bn fn (occurs + 1) (rv + nr)) = some (Except.ok (rv + nr))
          rw [if_pos hnrb, if_neg hocc]
    · refine ⟨1, Except.ok rv, ?_⟩
      intro f hf
      obtain ⟨g, rfl⟩ : ∃ g, f = g + 1 := ⟨f - 1, by omega⟩
      rw [choice_loop, if_neg h1]
  | succ d ihd =>
    intro index occurs rv hd
    by_cases h1 : MaxOcc.natLt occurs max_occurs = true
    · obtain ⟨f1, r1, h1sc⟩ := Hsc index
      cases r1 with
      | error e =>
        refine ⟨f1 + 1, Except.error e, ?_⟩
        intro f hf
        obtain ⟨g, rfl⟩ : ∃ g, f = g + 1 := ⟨f - 1, by omega⟩
        rw [choice_loop, if_pos h1, h1sc g (by omega)]
      | ok nr =>
        by_cases hnr : (nr == 0) = true
        · by_cases hocc : occurs < min_occurs
          · refine ⟨f1 + 1, Except.ok 0, ?_⟩
            intro f hf
            obtain ⟨g, rfl⟩ : ∃ g, f = g + 1 := ⟨f - 1, by omega⟩
            rw [choice_loop, if_pos h1, h1sc g (by omega)]
            show (if (nr == 0) = true
              then if occurs < min_occurs then some (Except.ok 0)
                else some (Except.ok (rv + nr))
              else choice_loop g children min_occurs max_occurs rows
                (index + nr) bn fn (occurs + 1) (rv + nr)) =
              some (Except.ok 0)
            rw [if_pos hnr, if_pos hocc]
          · refine ⟨f1 + 1, Except.ok (rv + nr), ?_⟩
            intro f hf
            obtain ⟨g, rfl⟩ : ∃ g, f = g + 1 := ⟨f - 1, by omega⟩
            rw [choice_loop, if_pos h1, h1sc g (by omega)]
            show (if (nr == 0) = true
              then if occurs < min_occurs then some (Except.ok 0)
                else some (Except.ok (rv + nr))
              else choice_loop g children min_occurs max_occurs rows
                (index + nr) bn fn (occurs + 1) (rv + nr)) =
              some (Except.ok (rv + nr))
            rw [if_pos hnr, if_neg hocc]
        · have hnrpos : nr ≠ 0 := by simpa using hnr
          have hbound : nr ≤ rows.length - index :=
            (engine_le f1).2.1 _ _ _ _ _ _ (h1sc f1 (le_refl f1))
          obtain ⟨f2, r2, h2⟩ := ihd (index + nr) (occurs + 1) (rv + nr)
            (by omega)
          refine ⟨max f1 f2 + 1, r2, ?_⟩
          intro f hf
          obtain ⟨g, rfl⟩ : ∃ g, f = g + 1 := ⟨f - 1, by omega⟩
          rw [choice_loop, if_pos h1, h1sc g (by omega)]
          show (if (nr == 0) = true
            then if occurs < min_occurs then some (Except.ok 0)
              else some (Except.ok (rv + nr))
            else choice_loop g children min_occurs max_occurs rows (index + nr)
              bn fn (occurs + 1) (rv + nr)) = some r2
          rw [if_neg hnr]
          exact h2 g (by omega)
    · refine ⟨1, Except.ok rv, ?_⟩
      intro f hf
      obtain ⟨g, rfl⟩ : ∃ g, f = g + 1 := ⟨f - 1, by omega⟩
      rw [choice_loop, if_neg h1]

theorem sequence_loop_stable (rows : List Row) (bn fn : Int)
    (children : List Node) (min_occurs : Nat) (max_occurs : MaxOcc)
    (Hss : ∀ index : Nat, ∃ fuel r, ∀ f, fuel ≤ f →
      single_sequence f children rows index bn fn 0 = some r) :
    ∀ d index occurs rv : Nat, rows.length - index ≤ d →
    ∃ fuel r, ∀ f, fuel ≤ f →
      sequence_loop f children min_occurs max_occurs rows index bn fn occurs
        rv = some r := by
  intro d
  induction d with
  | zero =>
    intro index occurs rv hd
    by_cases h1 : MaxOcc.natLt occurs max_occurs = true
    · obtain ⟨f1, r1, h1ss⟩ := Hss index
      cases r1 with
      | error e =>
        refine ⟨f1 + 1, Except.error e, ?_⟩
        intro f hf
        obtain ⟨g, rfl⟩ : ∃ g, f = g + 1 := ⟨f - 1, by omega⟩
        rw [sequence_loop, if_pos h1, h1ss g (by omega)]
      | ok nr =>
        have hnr0 : nr = 0 := by
          have := (engine_le f1).2.2.1 _ _ _ _ _ _ _ (h1ss f1 (le_refl f1))
          omega
        have hnrb : (nr == 0) = true := by simp [hnr0]
        by_cases hocc : occurs < min_occurs
        · refine ⟨f1 + 1, Except.ok 0, ?_⟩
          intro f hf
          obtain ⟨g, rfl⟩ : ∃ g, f = g + 1 := ⟨f - 1, by omega⟩
          rw [sequence_loop, if_pos h1, h1ss g (by omega)]
          show (if (nr == 0) = true
            then if occurs < min_occurs then some (Except.ok 0)
              else some (Except.ok rv)
            else sequence_loop g children min_occurs max_occurs rows
              (index + nr) bn fn (occurs + 1) (rv + nr)) = some (Except.ok 0)
          rw [if_pos hnrb, if_pos hocc]
        · refine ⟨f1 + 1, Except.ok rv, ?_⟩
          intro f hf
          obtain ⟨g, rfl⟩ : ∃ g, f = g + 1 := ⟨f - 1, by omega⟩
          rw [sequence_loop, if_pos h1, h1ss g (by omega)]
          show (if (nr == 0) = true
            then if occurs < min_occurs then some (Except.ok 0)
              else some (Except.ok rv)
            else sequence_loop g children min_occurs max_occurs rows
              (index + nr) bn fn (occurs + 1) (rv + nr)) = some (Except.ok rv)
          rw [if_pos hnrb, if_neg hocc]
    · refine ⟨1, Except.ok rv, ?_⟩
      intro f hf
      obtain ⟨g, rfl⟩ : ∃ g, f = g + 1 := ⟨f - 1, by omega⟩
      rw [sequence_loop, if_neg h1]
  | succ d ihd =>
    intro index occurs rv hd
    by_cases h1 : MaxOcc.natLt occurs max_occurs = true
    · obtain ⟨f1, r1, h1ss⟩ := Hss index
      cases r1 with
      | error e =>
        refine ⟨f1 + 1, Except.error e, ?_⟩
        intro f hf
        obtain ⟨g, rfl⟩ : ∃ g, f = g + 1 := ⟨f - 1, by omega⟩
        rw [sequence_loop, if_pos h1, h1ss g (by omega)]
      | ok nr =>
        by_cases hnr : (nr == 0) = true
        · by_cases hocc : occurs < min_occurs
          · refine ⟨f1 + 1, Except.ok 0, ?_⟩
            intro f hf
            obtain ⟨g, rfl⟩ : ∃ g, f = g + 1 := ⟨f - 1, by omega⟩
            rw [sequence_loop, if_pos h1, h1ss g (by omega)]
            show (if (nr == 0) = true
              then if occurs < min_occurs then some (Except.ok 0)
                else some (Except.ok rv)
              else sequence_loop g children min_occurs max_occurs rows
                (index + nr) bn fn (occurs + 1) (rv + nr)) =
              some (Except.ok 0)
            rw [if_pos hnr, if_pos hocc]
          · refine ⟨f1 + 1, Except.ok rv, ?_⟩
            intro f hf
            obtain ⟨g, rfl⟩ : ∃ g, f = g + 1 := ⟨f - 1, by omega⟩
            rw [sequence_loop, if_pos h1, h1ss g (by omega)]
            show (if (nr == 0) = true
              then if occurs < min_occurs then some (Except.ok 0)
                else some (Except.ok rv)
              else sequence_loop g children min_occurs max_occurs rows
                (index + nr) bn fn (occurs + 1) (rv + nr)) =
              some (Except.ok rv)
            rw [if_pos hnr, if_neg hocc]
        · have hnrpos : nr ≠ 0 := by simpa using hnr
          have hbound : nr ≤ 0 + (rows.length - index) :=
            (engine_le f1).2.2.1 _ _ _ _ _ _ _ (h1ss f1 (le_refl f1))
          obtain ⟨f2, r2, h2⟩ := ihd (index + nr) (occurs + 1) (rv + nr)
            (by omega)
          refine ⟨max f1 f2 + 1, r2, ?_⟩
          intro f hf
          obtain ⟨g, rfl⟩ : ∃ g, f = g + 1 := ⟨f - 1, by omega⟩
          rw [sequence_loop, if_pos h1, h1ss g (by omega)]
          show (if (nr == 0) = true
            then if occurs < min_occurs then some (Except.ok 0)
              else some (Except.ok rv)
            else sequence_loop g children min_occurs max_occurs rows
              (index + nr) bn fn (occurs + 1) (rv + nr)) = some r2
          rw [if_neg hnr]
          exact h2 g (by omega)
    · refine ⟨1, Except.ok rv, ?_⟩
      intro f hf
      obtain ⟨g, rfl⟩ : ∃ g, f = g + 1 := ⟨f - 1, by omega⟩
      rw [sequence_loop, if_neg h1]

theorem Node.size_pos : ∀ node : Node, 1 ≤ Node.size node
  | .mk _ _ _ _ children _ => by rw [Node.size]; omega

theorem Node.sizeList_mem_le : ∀ (cs : List Node) (c : Node), c ∈ cs →
    Node.size c ≤ Node.sizeList cs := by
  intro cs
  induction cs with
  | nil =>
    intro c hc
    exact absurd hc (List.not_mem_nil c)
  | cons d ds ih =>
    intro c hc
    rw [Node.sizeList]
    rcases List.mem_cons.1 hc with h | h
    · subst h
      omega
    · have := ih c h
      omega

theorem Node.size_child_lt {node c : Node} (hc : c ∈ node.children) :
    Node.size c < Node.size node := by
  cases node with
  | mk minO maxO sq ch children rt =>
    have h1 : Node.size c ≤ Node.sizeList children :=
      Node.sizeList_mem_le children c (by simpa [Node.children] using hc)
    rw [Node.size]
    omega

theorem validate_node_stable : ∀ (s : Nat) (node : Node),
    Node.size node ≤ s → ∀ (rows : List Row) (index : Nat) (bn fn : Int),
    ∃ fuel r, ∀ f, fuel ≤ f →
      validate_node f node rows index bn fn = some r := by
  intro s
  induction s with
  | zero =>
    intro node hs
    exact absurd hs (by have := Node.size_pos node; omega)
  | succ s ihs =>
    intro node hs rows index bn fn
    cases hc : node.children with
    | nil =>
      obtain ⟨f1, n, h1⟩ := leaf_loop_stable (rows.length - index)
        node.min_occurs node.max_occurs node.row_type rows index 0 (le_refl _)
      refine ⟨f1 + 1, Except.ok n, ?_⟩
      intro f hf
      obtain ⟨g, rfl⟩ : ∃ g, f = g + 1 := ⟨f - 1, by omega⟩
      rw [validate_node]
      simp only [hc]
      rw [h1 g (by omega)]
    | cons child rest =>
      have Hchild : ∀ c ∈ node.children, ∀ idx : Nat, ∃ fuel r, ∀ f, fuel ≤ f
          → validate_node f c rows idx bn fn = some r := by
        intro c hcmem idx
        have hlt := Node.size_child_lt hcmem
        exact ihs c (by omega) rows idx bn fn
      by_cases hch : node.is_choice = true
      · have Hsc := single_choice_stable rows bn fn node.children Hchild
        obtain ⟨f2, r2, h2⟩ := choice_loop_stable rows bn fn node.children
          node.min_occurs node.max_occurs Hsc (rows.length - index) index 0 0
          (le_refl _)
        refine ⟨f2 + 1, r2, ?_⟩
        intro f hf
        obtain ⟨g, rfl⟩ : ∃ g, f = g + 1 := ⟨f - 1, by omega⟩
        rw [validate_node]
        simp only [hc]
        rw [if_pos hch]
        have heq : choice_loop g (child :: rest) node.min_occurs
            node.max_occurs rows index bn fn 0 0 = some r2 := by
          rw [← hc]
          exact h2 g (by omega)
        rw [← hc]
        exact h2 g (by omega)
      · by_cases hsq : node.is_sequence = true
        · have Hss0 : ∀ idx : Nat, ∃ fuel r, ∀ f, fuel ≤ f →
              single_sequence f node.children rows idx bn fn 0 = some r :=
            fun idx =>
              single_sequence_stable rows bn fn node.children Hchild idx 0
          obtain ⟨f2, r2, h2⟩ := sequence_loop_stable rows bn fn node.children
            node.min_occurs node.max_occurs Hss0 (rows.length - index) index 0
            0 (le_refl _)
          refine ⟨f2 + 1, r2, ?_⟩
          intro f hf
          obtain ⟨g, rfl⟩ : ∃ g, f = g + 1 := ⟨f - 1, by omega⟩
          rw [validate_node]
          simp only [hc]
          rw [if_neg hch, if_pos hsq, ← hc]
          exact h2 g (by omega)
        · have hmem : child ∈ node.children := by
            rw [hc]
            exact List.mem_cons_self child rest
          obtain ⟨f1, r1, h1⟩ := Hchild child hmem index
          cases r1 with
          | error e =>
            refine ⟨f1 + 1, Except.error e, ?_⟩
            intro f hf
            obtain ⟨g, rfl⟩ : ∃ g, f = g + 1 := ⟨f - 1, by omega⟩
            rw [validate_node]
            simp only [hc]
            rw [if_neg hch, if_neg hsq, h1 g (by omega)]
          | ok rv =>
            by_cases hcond : (!rows.isEmpty && rv != rows.length) = true
            · cases hidx : rows[index]? with
              | some row =>
                refine ⟨f1 + 1, Except.error (VError.raiseCall
                  [PyArg.nat row.row_number, PyArg.nat rv, PyArg.int bn,
                   PyArg.int fn, PyArg.node node, PyArg.rows rows]), ?_⟩
                intro f hf
                obtain ⟨g, rfl⟩ : ∃ g, f = g + 1 := ⟨f - 1, by omega⟩
                rw [validate_node]
                simp only [hc]
                rw [if_neg hch, if_neg hsq, h1 g (by omega)]
                show (if (!rows.isEmpty && rv != rows.length) = true
                  then match rows[index]? with
                    | some row2 =>
                      some (Except.error (VError.raiseCall
                        [PyArg.nat row2.row_number, PyArg.nat rv,
                         PyArg.int bn, PyArg.int fn, PyArg.node node,
                         PyArg.rows rows]))
                    | Option.none => some (Except.error VError.indexError)
                  else some (Except.ok rv)) = _
                rw [if_pos hcond, hidx]
              | none =>
                refine ⟨f1 + 1, Except.error VError.indexError, ?_⟩
                intro f hf
                obtain ⟨g, rfl⟩ : ∃ g, f = g + 1 := ⟨f - 1, by omega⟩
                rw [validate_node]
                simp only [hc]
                rw [if_neg hch, if_neg hsq, h1 g (by omega)]
                show (if (!rows.isEmpty && rv != rows.length) = true
                  then match rows[index]? with
                    | some row2 =>
                      some (Except.error (VError.raiseCall
                        [PyArg.nat row2.row_number, PyArg.nat rv,
                         PyArg.int bn, PyArg.int fn, PyArg.node node,
                         PyArg.rows rows]))
                    | Option.none => some (Except.error VError.indexError)
                  else some (Except.ok rv)) = _
                rw [if_pos hcond, hidx]
            · refine ⟨f1 + 1, Except.ok rv, ?_⟩
              intro f hf
              obtain ⟨g, rfl⟩ : ∃ g, f = g + 1 := ⟨f - 1, by omega⟩
              rw [validate_node]
              simp only [hc]
              rw [if_neg hch, if_neg hsq, h1 g (by omega)]
              show (if (!rows.isEmpty && rv != rows.length) = true
                then match rows[index]? with
                  | some row2 =>
                    some (Except.error (VError.raiseCall
                      [PyArg.nat row2.row_number, PyArg.nat rv,
                       PyArg.int bn, PyArg.int fn, PyArg.node node,
                       PyArg.rows rows]))
                  | Option.none => some (Except.error VError.indexError)
                else some (Except.ok rv)) = _
              rw [if_neg hcond]

/-- Claim C9: `validate_node` terminates on every finite grammar tree
and finite row list, unbounded `max_occurs` included — some finite fuel
suffices and the result is then stable, because every repetition that
keeps a Choice/Sequence loop going consumes at least one row, bounding
the repetitions by the remaining rows. -/
theorem claim_C9_terminates (node : Node) (rows : List Row) (index : Nat)
    (block_number file_number : Int) :
    ∃ fuel r, ∀ f, fuel ≤ f →
      validate_node f node rows index block_number file_number = some r :=
  validate_node_stable (Node.size node) node (le_refl _) rows index
    block_number file_number

/-- Witness for C9 at a concrete grammar (an unbounded choice over one
leaf) and a concrete row list. -/
theorem claim_C9_terminates_witness :
    ∃ fuel r, ∀ f, fuel ≤ f →
      validate_node f
        (Node.mk 1 MaxOcc.inf false true
          [Node.mk 1 (MaxOcc.fin 1) false false [] (some "SY02")] Option.none)
        [{type := "SY02", row_number := 1}] 0 0 0 = some r :=
  claim_C9_terminates
    (Node.mk 1 MaxOcc.inf false true
      [Node.mk 1 (MaxOcc.fin 1) false false [] (some "SY02")] Option.none)
    [{type := "SY02", row_number := 1}] 0 0 0

/-- Claim C7: `_get_row_type` does contain the claimed row-local guard
for empty records (first conjunct) — but `parse_file` never reaches it:
the comment check `line[0].startswith('#')` runs before the `try:` and
raises an uncaught `IndexError` on the empty field list, aborting the
file with nothing logged and the remaining rows unparsed (second
conjunct). -/
theorem claim_C7_empty_record :
    _get_row_type Option.none "f1.tsv" [] 2 =
      Except.error (PyErr.validationError (row_validation_failure_str 2
        "f1.tsv" "It is not permissible to include empty Records.")) ∧
    parse_file (fun _ => demo_schema) "f1.tsv" 1 empty_record_lines =
      { blocks := [], logged := [], aborted := some PyErr.indexError } :=
  ⟨rfl, rfl⟩

/-- Claim C8, counterexample: with a FOOT block open, the body row
`AS02` that follows is not reported as an error — it silently closes
the footer block and opens (and yields) a fresh BODY block; nothing is
logged and no exception is raised. -/
theorem claim_C8_counterexample :
    parse_file (fun _ => demo_schema) "f1.tsv" 7 foot_then_body_lines =
      { blocks :=
          [{ file_number := 7, type := BlockType.head, number := 0,
             version := "1.1", rows := [{ type := "HEAD", row_number := 1 }] },
           { file_number := 7, type := BlockType.body, number := 1,
             version := "", rows := [{ type := "AS02", row_number := 2 }] },
           { file_number := 7, type := BlockType.foot, number := 0,
             version := "", rows := [{ type := "FFOO", row_number := 3 }] },
           { file_number := 7, type := BlockType.body, number := 2,
             version := "", rows := [{ type := "AS02", row_number := 4 }] }],
        logged := [], aborted := Option.none } ∧
    (parse_file (fun _ => demo_schema) "f1.tsv" 7 foot_then_body_lines).logged
      = [] ∧
    (parse_file (fun _ => demo_schema) "f1.tsv" 7
      foot_then_body_lines).aborted = Option.none :=
  ⟨rfl, rfl, rfl⟩

/-- Claim C8, amended: once the reader is in the footer state, a
subsequent row whose type is not in the footer code set merely closes
the footer block (`is_end_of_block` returns `True`); the row is then
accepted into a new HEAD or BODY block and no error is reported —
footer terminality is not enforced. -/
theorem claim_C8_amended (file_name : String) (line : List String)
    (row_type : String) (row_number : Nat) (current_block : Block)
    (hfoot : current_block.type = BlockType.foot)
    (hrow : FOOT_ROWS.contains row_type = false) :
    is_end_of_block file_name line row_type row_number current_block =
      Except.ok true := by
  unfold is_end_of_block
  rw [hfoot]
  rw [if_neg (show ¬(BlockType.foot = BlockType.head) by decide)]
  rw [if_pos (rfl : BlockType.foot = BlockType.foot)]
  rw [hrow]
  rfl

/-- Witness for the amended C8 at a concrete footer block and body
row. -/
theorem claim_C8_amended_witness :
    is_end_of_block "f2.tsv" ["AS02", "9"] "AS02" 9
      { file_number := 7, type := BlockType.foot } = Except.ok true :=
  claim_C8_amended "f2.tsv" ["AS02", "9"] "AS02" 9
    { file_number := 7, type := BlockType.foot } rfl rfl

/-! ## Positional zip of fields against validators (claim C10) -/
theorem zip_take_left {α β : Type} : ∀ (l1 : List α) (l2 extra : List β),
    l1.length ≤ l2.length → List.zip l1 (l2 ++ extra) = List.zip l1 l2 := by
  intro l1
  induction l1 with
  | nil =>
    intro l2 extra h
    simp [List.zip]
  | cons a as ih =>
    intro l2 extra h
    cases l2 with
    | nil => exact absurd h (by simp)
    | cons b bs =>
      simp only [List.cons_append, List.zip_cons_cons]
      rw [ih bs extra (by simpa using h)]

theorem zip_take_right {α β : Type} : ∀ (l2 : List β) (l1 extra : List α),
    l2.length ≤ l1.length → List.zip (l1 ++ extra) l2 = List.zip l1 l2 := by
  intro l2
  induction l2 with
  | nil =>
    intro l1 extra h
    simp [List.zip]
  | cons b bs ih =>
    intro l1 extra h
    cases l1 with
    | nil => exact absurd h (by simp)
    | cons a as =>
      simp only [List.cons_append, List.zip_cons_cons]
      rw [ih as extra (by simpa using h)]

/-- Evaluation shape of `get_row_object` when the schema is non-empty
and the row type is present: the Row's cells and the logged failures
come from the fold over `zip(row_validator, line)`. -/
theorem get_row_object_eval (rvl : RowValidators)
    (row_validator : List (Option CellValidator)) (file_name : String)
    (line : List String) (row_type : String) (row_number : Nat)
    (block_number : Int) (hne : rvl.isEmpty = false)
    (hget : dictGet rvl row_type = some row_validator) :
    get_row_object (some rvl) file_name line row_type row_number
      block_number =
    Except.ok ({ type := row_type, row_number := row_number,
                 cells := (row_cells_loop file_name row_number block_number
                   (List.zip row_validator line)).1 },
      (row_cells_loop file_name row_number block_number
        (List.zip row_validator line)).2) := by
  unfold get_row_object
  have ht : rvl_truthy (some rvl) = true := by
    show (!List.isEmpty rvl) = true
    rw [hne]
    rfl
  rw [ht, Bool.not_true]
  rw [if_neg (show ¬(false = true) by simp)]
  show (match dictGet rvl row_type with
    | Option.none => Except.error (PyErr.keyError row_type)
    | some row_validator =>
      Except.ok (({ type := row_type, row_number := row_number,
                    cells := (row_cells_loop file_name row_number block_number
                      (List.zip row_validator line)).1 } : Row),
        (row_cells_loop file_name row_number block_number
          (List.zip row_validator line)).2)) = _
  rw [hget]

/-- Claim C10: row construction validates only the positional zip
prefix of fields with validators — fields beyond the validator list are
ignored (no error), and validators beyond the physical fields (required
ones included) are never invoked, so the result, including its logged
errors, is unchanged; in both cases the Row object is still produced. -/
theorem claim_C10_zip_truncation (rvl : RowValidators) (row_type : String)
    (file_name : String) (row_validator : List (Option CellValidator))
    (line extra_fields : List String)
    (extra_validators : List (Option CellValidator)) (row_number : Nat)
    (block_number : Int) (hget : dictGet rvl row_type = some row_validator)
    (hne : rvl.isEmpty = false) :
    (row_validator.length ≤ line.length →
      get_row_object (some rvl) file_name (line ++ extra_fields) row_type
        row_number block_number =
      get_row_object (some rvl) file_name line row_type row_number
        block_number) ∧
    (∀ rvl2 : RowValidators,
      dictGet rvl2 row_type = some (row_validator ++ extra_validators) →
      rvl2.isEmpty = false → line.length ≤ row_validator.length →
      get_row_object (some rvl2) file_name line row_type row_number
        block_number =
      get_row_object (some rvl) file_name line row_type row_number
        block_number) := by
  constructor
  · intro hlen
    rw [get_row_object_eval rvl row_validator file_name (line ++ extra_fields)
        row_type row_number block_number hne hget,
      get_row_object_eval rvl row_validator file_name line row_type row_number
        block_number hne hget,
      zip_take_left row_validator line extra_fields hlen]
  · intro rvl2 hget2 hne2 hlen
    rw [get_row_object_eval rvl2 (row_validator ++ extra_validators) file_name
        line row_type row_number block_number hne2 hget2,
      get_row_object_eval rvl row_validator file_name line row_type row_number
        block_number hne hget,
      zip_take_right line row_validator extra_validators hlen]

/-- Claim C6, counterexample: a union whose member is itself a union
declared later in the document is NOT reported as a schema error — the
single pass silently concatenates the member's current (still empty)
list, so `UseUnion` resolves to the empty value set and the parse
succeeds. -/
theorem claim_C6_counterexample :
    parse_fixed_strings "avs.xsd" avs_forward_union_doc =
      Except.ok [("UseUnion", []), ("SubUnion", ["x"]), ("Base", ["x"])] ∧
    dictGet [("UseUnion", ([] : List String)), ("SubUnion", ["x"]),
      ("Base", ["x"])] "UseUnion" = some [] :=
  ⟨rfl, rfl⟩

/-- Claim C6, amended: a union's value set is the concatenation, in
member order, of each member's value list as currently resolved at that
point of the single document-order pass (first conjunct); a member
absent from the document raises an uncaught `KeyError` rather than a
library schema error (second conjunct); and a member that is itself a
not-yet-processed union silently contributes its current — possibly
empty — list, yielding a partial or empty value set with no error
(third conjunct). -/
theorem claim_C6_amended :
    parse_fixed_strings "avs.xsd" avs_ok_union_doc =
      Except.ok [("A", ["a1", "a2"]), ("B", ["b1"]),
        ("C", ["a1", "a2", "b1"])] ∧
    parse_fixed_strings "avs.xsd" avs_absent_member_doc =
      Except.error (PyErr.keyError "Missing") ∧
    parse_fixed_strings "avs.xsd" avs_forward_union_doc =
      Except.ok [("UseUnion", []), ("SubUnion", ["x"]), ("Base", ["x"])] :=
  ⟨rfl, rfl, rfl⟩

/-- Witness for C10: a required validator standing beyond the physical
end of the row is never invoked — the Row is produced with no cells and
no missing-required-value error is logged. -/
theorem claim_C10_zip_truncation_witness :
    get_row_object (some [("AS02", [some c10_required_validator])]) "f1.tsv"
      [] "AS02" 4 1 =
    get_row_object (some [("AS02", [])]) "f1.tsv" [] "AS02" 4 1 ∧
    get_row_object (some [("AS02", [some c10_required_validator])]) "f1.tsv"
      [] "AS02" 4 1 =
      Except.ok ({ type := "AS02", row_number := 4, cells := [] }, []) :=
  ⟨(claim_C10_zip_truncation [("AS02", [])] "AS02" "f1.tsv" [] [] []
      [some c10_required_validator] 4 1 rfl rfl).2
      [("AS02", [some c10_required_validator])] rfl rfl (Nat.le_refl _),
   rfl⟩

end Dsrf
